import Mathlib

/-!
Verification of the godcoin repository's core against its specification.

The script engine is embedded from
`src/crates/godcoin/src/godcoin/script/engine.rs`.  Scripts are byte
sequences (`List Nat`, each entry a byte), decoded opcode by opcode by
`consumeOp` exactly as `ScriptEngine::consume_op` does; the evaluator
`evalLoop` mirrors `ScriptEngine::eval`.  The operand stack
(`script/stack.rs`) and the opcode byte values (`script/mod.rs`) are not
part of the provided sources and are modelled from the spec where noted.

Ed25519 signature verification is abstracted as an oracle
`verify : List Nat → Nat → Bool` taking the 32-byte public key and the
signature identity: the engine encodes the enclosing transaction once and
every verification during one evaluation is against that same buffer, so
the oracle is a pure function of the key and the signature.
-/

deriving instance DecidableEq for Except

/-- Script evaluation error kinds, from `script/error.rs` as listed by the
spec's error taxonomy. -/
inductive EvalErrType
  | unexpectedEOF
  | unknownOp
  | invalidItemOnStack
  | scriptRetFalse
  | arithmetic
  deriving DecidableEq, Repr

/-- An evaluation error: the byte position within the script plus the kind. -/
structure EvalErr where
  pos : Nat
  err : EvalErrType
  deriving DecidableEq, Repr

/-- Decoded operations (`OpFrame` in the source).  A public key is carried
inline as its 32 bytes. -/
inductive OpFrame
  | opFalse
  | opTrue
  | pubKey (k : List Nat)
  | opNot
  | opIf
  | opElse
  | opEndIf
  | opReturn
  | opCheckSig
  | opCheckMultiSig (threshold keyCount : Nat)
  deriving DecidableEq, Repr

/-- Items held on the operand stack: only booleans and public keys are ever
pushed by the engine. -/
inductive StackItem
  | bool (b : Bool)
  | pubKey (k : List Nat)
  deriving DecidableEq, Repr

/-- Modelled from the spec: the operand stack (`script/stack.rs` is not in
the provided sources).  `popBool` pops the top frame and requires it to be
a boolean; any other frame, or an empty stack, is `InvalidItemOnStack`
(the spec's `EvalErrType` lists no other stack error kind and the engine's
tests expect `InvalidItemOnStack` when the top frame is a key). -/
def popBool : List StackItem → Except EvalErrType (Bool × List StackItem)
  | StackItem.bool b :: rest => .ok (b, rest)
  | _ => .error .invalidItemOnStack

/-- Modelled from the spec: pop the top frame, requiring a public key
(`Stack::pop_pubkey` in the missing `script/stack.rs`). -/
def popPubKey : List StackItem → Except EvalErrType (List Nat × List StackItem)
  | StackItem.pubKey k :: rest => .ok (k, rest)
  | _ => .error .invalidItemOnStack

/-- Modelled from the spec: byte values of the opcodes (`Operand` in the
missing `script/mod.rs`).  The engine's behaviour does not depend on the
specific values, only on their distinctness. -/
def bytePushFalse : Nat := 0x00
def bytePushTrue : Nat := 0x01
def bytePushPubKey : Nat := 0x02
def byteOpNot : Nat := 0x10
def byteOpIf : Nat := 0x11
def byteOpElse : Nat := 0x12
def byteOpEndIf : Nat := 0x13
def byteOpReturn : Nat := 0x14
def byteOpCheckSig : Nat := 0x20
def byteOpCheckMultiSig : Nat := 0x21

/-- One step of `ScriptEngine::consume_op`: returns `none` at the end of
the script, otherwise the decoded op together with the new byte position.
A push-pubkey opcode reads 32 inline bytes and a check-multisig opcode
reads the threshold and key-count bytes, each read bounds-checked with a
truncated operand yielding `UnexpectedEOF` at the position the engine
reports (`self.pos` just past the opcode byte, respectively past the
threshold byte). -/
def decodeByte (script : List Nat) (pos byte : Nat) :
    Except EvalErr (Option (OpFrame × Nat)) :=
  if byte = bytePushFalse then .ok (some (.opFalse, pos + 1))
    else if byte = bytePushTrue then .ok (some (.opTrue, pos + 1))
    else if byte = bytePushPubKey then
      if pos + 1 + 32 ≤ script.length then
        .ok (some (.pubKey ((script.drop (pos + 1)).take 32), pos + 1 + 32))
      else .error ⟨pos + 1, .unexpectedEOF⟩
    else if byte = byteOpNot then .ok (some (.opNot, pos + 1))
    else if byte = byteOpIf then .ok (some (.opIf, pos + 1))
    else if byte = byteOpElse then .ok (some (.opElse, pos + 1))
    else if byte = byteOpEndIf then .ok (some (.opEndIf, pos + 1))
    else if byte = byteOpReturn then .ok (some (.opReturn, pos + 1))
    else if byte = byteOpCheckSig then .ok (some (.opCheckSig, pos + 1))
    else if byte = byteOpCheckMultiSig then
      if h1 : pos + 1 < script.length then
        if h2 : pos + 2 < script.length then
          .ok (some (.opCheckMultiSig (script.get ⟨pos + 1, h1⟩)
            (script.get ⟨pos + 2, h2⟩), pos + 3))
        else .error ⟨pos + 2, .unexpectedEOF⟩
      else .error ⟨pos + 1, .unexpectedEOF⟩
    else .error ⟨pos + 1, .unknownOp⟩

/-- Dispatch of `consume_op` on the current byte (`if h` mirrors the fact
that the direct index `self.script[self.pos]` is only reached when the
position is strictly inside the script; the bound is the content of
C10). -/
def consumeOp (script : List Nat) (pos : Nat) :
    Except EvalErr (Option (OpFrame × Nat)) :=
  if h : pos < script.length then decodeByte script pos (script.get ⟨pos, h⟩)
  else .ok none

/-- First signature pair whose public key equals `key`, as the engine's
linear scan over `tx.signature_pairs` finds it. -/
def findSigPair (sigPairs : List (List Nat × Nat)) (key : List Nat) :
    Option (List Nat × Nat) :=
  sigPairs.find? (fun p => p.1 == key)

/-- Result pushed by `OpCheckSig`: the first pair matching the popped key
is verified; a key with no matching pair yields `false`. -/
def checkSig (verify : List Nat → Nat → Bool)
    (sigPairs : List (List Nat × Nat)) (key : List Nat) : Bool :=
  match findSigPair sigPairs key with
  | some p => verify key p.2
  | none => false

/-- Pop `n` public keys off the stack, in stack order, failing like the
engine's pop loop if any frame is not a key. -/
def popPubKeys : Nat → List StackItem →
    Except EvalErrType (List (List Nat) × List StackItem)
  | 0, stack => .ok ([], stack)
  | n + 1, stack =>
    match popPubKey stack with
    | .error e => .error e
    | .ok (k, rest) =>
      match popPubKeys n rest with
      | .error e => .error e
      | .ok (ks, rest2) => .ok (k :: ks, rest2)

/-- The `'key_loop` of `OpCheckMultiSig`: scan the keys in order; a key
with no matching pair is skipped; a key whose first matching pair verifies
bumps the count; a key whose first matching pair fails verification aborts
the whole scan with `success = false`. -/
def multisigScan (verify : List Nat → Nat → Bool)
    (sigPairs : List (List Nat × Nat)) :
    List (List Nat) → Nat → Bool × Nat
  | [], valid => (true, valid)
  | key :: rest, valid =>
    match findSigPair sigPairs key with
    | none => multisigScan verify sigPairs rest valid
    | some p =>
      if verify key p.2 then multisigScan verify sigPairs rest (valid + 1)
      else (false, valid)

/-- The body of the `OpCheckMultiSig(threshold, keyCount)` arm of
`ScriptEngine::eval`: pop the keys first, then short-circuit on
`threshold == 0` (push true) and `threshold > keys.len()` (push false),
otherwise run the scan and push the result. -/
def execMultiSig (verify : List Nat → Nat → Bool)
    (sigPairs : List (List Nat × Nat)) (threshold keyCount : Nat)
    (stack : List StackItem) : Except EvalErrType (List StackItem) :=
  match popPubKeys keyCount stack with
  | .error e => .error e
  | .ok (keys, rest) =>
    if threshold = 0 then .ok (.bool true :: rest)
    else if keys.length < threshold then .ok (.bool false :: rest)
    else
      let r := multisigScan verify sigPairs keys 0
      if r.1 then .ok (.bool (decide (threshold ≤ r.2)) :: rest)
      else .ok (.bool false :: rest)

/-- The matcher loop `consume_op_until` as used to skip an untaken branch:
counts nested `OpIf`/`OpEndIf`, breaking at an `OpElse` at the requested
level (marker unchanged) or an `OpEndIf` at the requested level (marker
decremented; it is also decremented when passing a deeper `OpEndIf`).
Running off the end of the script is `UnexpectedEOF`.  `fuel` is an upper
bound on the remaining steps; every step advances the position so the
callers' fuel is always sufficient (proved where used). -/
def skipBranch (fuel : Nat) (script : List Nat) (pos : Nat)
    (ifMarker req : Int) : Except EvalErr (Nat × Int) :=
  match fuel with
  | 0 => .error ⟨pos, .unexpectedEOF⟩
  | fuel + 1 =>
    match consumeOp script pos with
    | .error e => .error e
    | .ok none => .error ⟨pos, .unexpectedEOF⟩
    | .ok (some (op, pos2)) =>
      match op with
      | .opIf => skipBranch fuel script pos2 (ifMarker + 1) req
      | .opElse =>
        if ifMarker = req then .ok (pos2, ifMarker)
        else skipBranch fuel script pos2 ifMarker req
      | .opEndIf =>
        if ifMarker = req then .ok (pos2, ifMarker - 1)
        else skipBranch fuel script pos2 (ifMarker - 1) req
      | _ => skipBranch fuel script pos2 ifMarker req

/-- The main loop of `ScriptEngine::eval`, one constructor per opcode arm.
Returns the popped boolean result together with the stack left behind on
the engine (the Rust tests read `engine.stack` after `eval`).  The
stack-error positions use `self.pos` as the engine does: the position just
past the opcode (and its inline operands).  `fuel` bounds the remaining
iterations; the wrapper `eval` passes `script.length + 1`, which is always
sufficient because every iteration advances the position. -/
def evalLoop (fuel : Nat) (verify : List Nat → Nat → Bool)
    (sigPairs : List (List Nat × Nat)) (script : List Nat) (pos : Nat)
    (ifMarker : Int) (ignoreElse : Bool) (stack : List StackItem) :
    Except EvalErr (Bool × List StackItem) :=
  match fuel with
  | 0 => .error ⟨pos, .unexpectedEOF⟩
  | fuel + 1 =>
    match consumeOp script pos with
    | .error e => .error e
    | .ok none =>
      if 0 < ifMarker then .error ⟨pos, .unexpectedEOF⟩
      else
        match popBool stack with
        | .error e => .error ⟨pos, e⟩
        | .ok (b, rest) => .ok (b, rest)
    | .ok (some (op, pos2)) =>
      match op with
      | .opFalse =>
        evalLoop fuel verify sigPairs script pos2 ifMarker ignoreElse
          (.bool false :: stack)
      | .opTrue =>
        evalLoop fuel verify sigPairs script pos2 ifMarker ignoreElse
          (.bool true :: stack)
      | .pubKey k =>
        evalLoop fuel verify sigPairs script pos2 ifMarker ignoreElse
          (.pubKey k :: stack)
      | .opNot =>
        match popBool stack with
        | .error e => .error ⟨pos2, e⟩
        | .ok (b, rest) =>
          evalLoop fuel verify sigPairs script pos2 ifMarker ignoreElse
            (.bool (!b) :: rest)
      | .opIf =>
        match popBool stack with
        | .error e => .error ⟨pos2, e⟩
        | .ok (b, rest) =>
          if b then
            evalLoop fuel verify sigPairs script pos2 (ifMarker + 1) b rest
          else
            match skipBranch fuel script pos2 (ifMarker + 1) (ifMarker + 1) with
            | .error e => .error e
            | .ok (pos3, ifM3) =>
              evalLoop fuel verify sigPairs script pos3 ifM3 b rest
      | .opElse =>
        if !ignoreElse then
          evalLoop fuel verify sigPairs script pos2 ifMarker ignoreElse stack
        else
          match skipBranch fuel script pos2 ifMarker ifMarker with
          | .error e => .error e
          | .ok (pos3, ifM3) =>
            evalLoop fuel verify sigPairs script pos3 ifM3 ignoreElse stack
      | .opEndIf =>
        evalLoop fuel verify sigPairs script pos2 (ifMarker - 1) ignoreElse stack
      | .opReturn =>
        match popBool stack with
        | .error e => .error ⟨pos2, e⟩
        | .ok (b, rest) => .ok (b, rest)
      | .opCheckSig =>
        match popPubKey stack with
        | .error e => .error ⟨pos2, e⟩
        | .ok (key, rest) =>
          evalLoop fuel verify sigPairs script pos2 ifMarker ignoreElse
            (.bool (checkSig verify sigPairs key) :: rest)
      | .opCheckMultiSig threshold keyCount =>
        match execMultiSig verify sigPairs threshold keyCount stack with
        | .error e => .error ⟨pos2, e⟩
        | .ok stack2 =>
          evalLoop fuel verify sigPairs script pos2 ifMarker ignoreElse stack2

/-- `ScriptEngine::eval`: run the loop from position 0 with an empty stack
and `if_marker = 0`. -/
def eval (verify : List Nat → Nat → Bool)
    (sigPairs : List (List Nat × Nat)) (script : List Nat) :
    Except EvalErr (Bool × List StackItem) :=
  evalLoop (script.length + 1) verify sigPairs script 0 0 false []

example : eval (fun _ _ => false) [] [bytePushTrue] = .ok (true, []) := by decide
example : eval (fun _ _ => false) [] [bytePushFalse] = .ok (false, []) := by decide
example :
    eval (fun _ _ => false) []
      [bytePushTrue, byteOpIf, bytePushFalse, byteOpEndIf] =
    .ok (false, []) := by decide
example :
    eval (fun _ _ => false) []
      [bytePushFalse, byteOpIf, bytePushFalse, byteOpElse, bytePushTrue,
        byteOpEndIf] =
    .ok (true, []) := by decide
example :
    eval (fun _ _ => false) [] [bytePushTrue, byteOpIf] =
    .error ⟨2, .unexpectedEOF⟩ := by decide
example :
    eval (fun _ _ => false) [] [bytePushFalse, byteOpIf] =
    .error ⟨2, .unexpectedEOF⟩ := by decide

/-!
The ledger, embedded from `src/crates/godcoin/src/blockchain/mod.rs`.
Digests (script hashes, header hashes, receipt roots) are abstracted as
`Nat` identities computed by hash-function parameters; signature checking
is an oracle parameter, as with the script engine.  The `Asset` type and
its checked fixed-point arithmetic (`asset.rs` is not among the provided
sources) are modelled from the spec: a signed 64-bit amount at five
decimal places with checked add/sub/mul/pow, where any overflow of the
`i64` range yields no value.
-/

/-- Modelled from the spec: a fixed-point monetary amount (`asset.rs` is
not in the provided sources).  The `amount` is the raw signed integer at
`10^5` scale; all arithmetic below fails outside the `i64` range. -/
structure Asset where
  amount : Int
  deriving DecidableEq, Repr

/-- Lower bound of the `i64` range. -/
def i64Lo : Int := -(2 ^ 63)

/-- Upper bound of the `i64` range. -/
def i64Hi : Int := 2 ^ 63 - 1

/-- Modelled from the spec: checked addition of assets. -/
def Asset.checkedAdd (a b : Asset) : Option Asset :=
  let r := a.amount + b.amount
  if i64Lo ≤ r ∧ r ≤ i64Hi then some ⟨r⟩ else none

/-- Modelled from the spec: checked subtraction of assets. -/
def Asset.checkedSub (a b : Asset) : Option Asset :=
  let r := a.amount - b.amount
  if i64Lo ≤ r ∧ r ≤ i64Hi then some ⟨r⟩ else none

/-- Scale of the fixed-point representation (five decimal places). -/
def assetScale : Int := 100000

/-- Modelled from the spec: checked fixed-point multiplication, truncating
toward zero as Rust integer division does. -/
def Asset.checkedMul (a b : Asset) : Option Asset :=
  let r := Int.tdiv (a.amount * b.amount) assetScale
  if i64Lo ≤ r ∧ r ≤ i64Hi then some ⟨r⟩ else none

/-- The fixed-point representation of one. -/
def Asset.one : Asset := ⟨assetScale⟩

/-- Modelled from the spec: checked fixed-point exponentiation by
iterated checked multiplication. -/
def Asset.checkedPow (a : Asset) : Nat → Option Asset
  | 0 => some Asset.one
  | n + 1 =>
    match a.checkedPow n with
    | none => none
    | some m => m.checkedMul a

/-- A signature pair: public key and signature, both abstract identities
at the ledger level. -/
structure SigPair where
  pubKey : Nat
  sig : Nat
  deriving DecidableEq, Repr

/-- Common transaction header (`Tx` in `tx.rs` of the ledger's era). -/
structure TxBase where
  nonce : Nat
  expiry : Nat
  fee : Asset
  sigPairs : List SigPair
  deriving DecidableEq, Repr

/-- Owner-rotation transaction data. -/
structure OwnerTxD where
  base : TxBase
  minter : Nat
  wallet : Nat
  script : List Nat
  deriving DecidableEq, Repr

/-- Mint transaction data. -/
structure MintTxD where
  base : TxBase
  toAddr : Nat
  amount : Asset
  script : List Nat
  deriving DecidableEq, Repr

/-- Create-account transaction data (only the fields the embedded ledger
operations read). -/
structure CreateAccountTxD where
  base : TxBase
  creator : Nat
  accountId : Nat
  deriving DecidableEq, Repr

/-- Transfer transaction data. -/
structure TransferTxD where
  base : TxBase
  fromAddr : Nat
  amount : Asset
  memo : List Nat
  script : List Nat
  deriving DecidableEq, Repr

/-- The `V0` transaction variants. -/
inductive TxVariantV0
  | owner (tx : OwnerTxD)
  | mint (tx : MintTxD)
  | createAccount (tx : CreateAccountTxD)
  | transfer (tx : TransferTxD)
  deriving DecidableEq, Repr

/-- An effect-log entry produced by script evaluation. -/
inductive LogEntry
  | transfer (toAddr : Nat) (amount : Asset)
  deriving DecidableEq, Repr

/-- A receipt: a transaction plus its effect log. -/
structure Receipt where
  tx : TxVariantV0
  log : List LogEntry
  deriving DecidableEq, Repr

/-- A block header. -/
structure BlockHeader where
  height : Nat
  previousHash : Nat
  receiptRoot : Nat
  timestamp : Nat
  deriving DecidableEq, Repr

/-- A block: header, optional signer, rewards and receipts. -/
structure Block where
  header : BlockHeader
  signer : Option SigPair
  rewards : Asset
  receipts : List Receipt
  deriving DecidableEq, Repr

/-- Transaction validation errors (`TxErr`). -/
inductive TxErr
  | tooManySignatures
  | txTooLarge
  | invalidFeeAmount
  | invalidAmount
  | scriptHashMismatch
  | scriptEval (e : EvalErr)
  | arithmetic
  | accountAlreadyExists
  | accountNotFound
  | invalidAccountPermissions
  deriving DecidableEq, Repr

/-- Block validation errors (`BlockErr`). -/
inductive BlockErr
  | invalidBlockHeight
  | invalidReceiptRoot
  | invalidPrevHash
  | invalidSignature
  | tx (e : TxErr)
  deriving DecidableEq, Repr

/-- The receipt-execution loop at the end of `Blockchain::verify_block`:
receipt `i` executes with the receipts before it as `additional_receipts`,
and the first failure aborts with `BlockErr::Tx`. -/
def runReceipts (execTx : TxVariantV0 → List Receipt → Except TxErr (List LogEntry)) :
    List Receipt → List Receipt → Except BlockErr Unit
  | _, [] => .ok ()
  | done, r :: rest =>
    match execTx r.tx done with
    | .error e => .error (.tx e)
    | .ok _ => runReceipts execTx (done ++ [r]) rest

/-- `Blockchain::verify_block`.  The chain state enters through
parameters: `calcRoot` recomputes the receipt root, `hashHeader` is the
header digest (used both for `previous_hash` checking and as the message
the block signer must have signed), `sigValid` is the signature oracle,
`ownerMinter` is the `minter` key of the current owner transaction and
`execTx` is `execute_tx` against the current state. -/
def verifyBlock (calcRoot : List Receipt → Nat) (hashHeader : BlockHeader → Nat)
    (sigValid : SigPair → Nat → Bool) (ownerMinter : Nat)
    (execTx : TxVariantV0 → List Receipt → Except TxErr (List LogEntry))
    (block prev : Block) : Except BlockErr Unit :=
  if prev.header.height + 1 ≠ block.header.height then .error .invalidBlockHeight
  else if calcRoot block.receipts ≠ block.header.receiptRoot then
    .error .invalidReceiptRoot
  else if block.header.previousHash ≠ hashHeader prev.header then
    .error .invalidPrevHash
  else
    match block.signer with
    | none => .error .invalidSignature
    | some signer =>
      if signer.pubKey ≠ ownerMinter then .error .invalidSignature
      else if ¬ sigValid signer (hashHeader block.header) then
        .error .invalidSignature
      else runReceipts execTx [] block.receipts

/-- Size limits enforced by `execute_tx`; the numeric values live in the
`constants` module, which is not among the provided sources, so they stay
abstract parameters. -/
structure Limits where
  maxTxSignatures : Nat
  maxScriptByteSize : Nat
  maxMemoByteSize : Nat
  deriving DecidableEq, Repr

/-- The result of `get_address_info`: the network fee, the address fee and
the balance, all already folded over the additional receipts. -/
structure AddressInfo where
  netFee : Asset
  addrFee : Asset
  balance : Asset
  deriving DecidableEq, Repr

/-- The `TransferTx` arm of `Blockchain::execute_tx` including the guard
checks that precede the variant match.  The chain state enters through
`addressInfo` (what `get_address_info` returned, `none` for an arithmetic
failure there) and `scriptEval` (what evaluating the transfer's script
against the transaction produced). -/
def executeTransferTx (lim : Limits) (hashScript : List Nat → Nat)
    (addressInfo : Option AddressInfo)
    (scriptEval : Except EvalErr (List LogEntry)) (tx : TransferTxD) :
    Except TxErr (List LogEntry) :=
  if lim.maxTxSignatures < tx.base.sigPairs.length then .error .tooManySignatures
  else if lim.maxScriptByteSize < tx.script.length then .error .txTooLarge
  else if lim.maxMemoByteSize < tx.memo.length then .error .txTooLarge
  else if tx.amount.amount < 0 then .error .invalidAmount
  else
    match addressInfo with
    | none => .error .arithmetic
    | some info =>
      match info.netFee.checkedAdd info.addrFee with
      | none => .error .arithmetic
      | some totalFee =>
        if tx.base.fee.amount < totalFee.amount then .error .invalidFeeAmount
        else if tx.fromAddr ≠ hashScript tx.script then .error .scriptHashMismatch
        else
          match info.balance.checkedSub tx.base.fee with
          | none => .error .arithmetic
          | some afterFee =>
            match afterFee.checkedSub tx.amount with
            | none => .error .arithmetic
            | some bal =>
              if bal.amount < 0 then .error .invalidAmount
              else
                match scriptEval with
                | .error e => .error (.scriptEval e)
                | .ok log => .ok log

/-- Sum of the receipt counts of the blocks at heights `lo..=hi`. -/
def sumReceipts (receiptCount : Nat → Nat) (lo hi : Nat) : Nat :=
  ((List.range (hi + 1 - lo)).map fun i => receiptCount (lo + i)).sum

/-- `Blockchain::get_network_fee`.  `receiptCount h` is the number of
receipts of the stored block at height `h`; `window` is
`NETWORK_FEE_AVG_WINDOW` and the fee constants are parameters (the
`constants` module is not among the provided sources).  The count starts
at 1, accumulates the receipt counts over the window and is then divided
by the window; a count beyond the `u16` range yields no value. -/
def getNetworkFee (feeMin feeNetMult : Asset) (window : Nat)
    (receiptCount : Nat → Nat) (chainHeight : Nat) : Option Asset :=
  let maxHeight := chainHeight - chainHeight % 5
  let minHeight := if window < maxHeight then maxHeight - window else 0
  let count := (1 + sumReceipts receiptCount minHeight maxHeight) / window
  if 65535 < count then none
  else
    match feeNetMult.checkedPow count with
    | none => none
    | some m => feeMin.checkedMul m

/-- A filtered block: either the full block or only its header and
signer. -/
inductive FilteredBlock
  | block (b : Block)
  | header (h : BlockHeader) (s : SigPair)
  deriving DecidableEq, Repr

/-- Whether one receipt matches the block filter, as the closure inside
`get_filtered_block` decides it; `none` models the `todo!()` panic hit on
a `CreateAccountTx` receipt. -/
def receiptMatches (hashScript : List Nat → Nat) (filter : List Nat)
    (r : Receipt) : Option Bool :=
  match r.tx with
  | .owner tx =>
    some (filter.contains tx.wallet || filter.contains (hashScript tx.script))
  | .mint tx =>
    some (filter.contains (hashScript tx.script) || filter.contains tx.toAddr)
  | .createAccount _ => none
  | .transfer tx =>
    if filter.contains tx.fromAddr then some true
    else
      some (r.log.any fun e =>
        match e with
        | .transfer toAddr _ => filter.contains toAddr)

/-- The short-circuiting `Iterator::any` over the receipts, propagating
the `todo!()` panic of an unmatched `CreateAccountTx` receipt as
`none`. -/
def receiptsAnyMatch (hashScript : List Nat → Nat) (filter : List Nat) :
    List Receipt → Option Bool
  | [] => some false
  | r :: rest =>
    match receiptMatches hashScript filter r with
    | none => none
    | some true => some true
    | some false => receiptsAnyMatch hashScript filter rest

/-- `Blockchain::get_filtered_block` for a block present at the requested
height.  `none` models a panic: the `todo!()` on create-account receipts,
or the `unwrap` of a missing signer on the header path. -/
def getFilteredBlock (hashScript : List Nat → Nat) (filter : List Nat)
    (block : Block) : Option FilteredBlock :=
  let hasMatch :=
    if filter.isEmpty then some false
    else receiptsAnyMatch hashScript filter block.receipts
  match hasMatch with
  | none => none
  | some true => some (.block block)
  | some false =>
    match block.signer with
    | none => none
    | some s => some (.header block.header s)

/-!
The replication wire format, embedded from
`src/crates/consensus/src/net/rpc.rs`.  Byte strings are `List Nat`; the
big-endian integer primitives mirror the `bytes` crate's `put_u8`,
`put_u64` and the serializer's `take_u8`/`take_u64`.  The log `Entry`
codec (`consensus/src/log.rs` is not among the provided sources) is
modelled from the spec: `u64 index, u64 term, length-prefixed bytes
data`, where a byte blob is a `u32` length followed by the bytes.
-/

/-- Little-endian base-256 digits of `n`, `w` of them. -/
def leDigits : Nat → Nat → List Nat
  | 0, _ => []
  | w + 1, n => n % 256 :: leDigits w (n / 256)

/-- Value of little-endian base-256 digits. -/
def leVal : List Nat → Nat
  | [] => 0
  | b :: rest => b + 256 * leVal rest

/-- Big-endian value of a digit list, as a reader folding bytes in order. -/
def beVal (l : List Nat) : Nat :=
  l.foldl (fun acc b => acc * 256 + b) 0

/-- `put_u64`: eight big-endian bytes. -/
def putU64 (n : Nat) : List Nat := (leDigits 8 n).reverse

/-- `put_u32`: four big-endian bytes. -/
def putU32 (n : Nat) : List Nat := (leDigits 4 n).reverse

/-- `take_u8`: one byte, or failure at end of input. -/
def takeU8 (l : List Nat) : Option (Nat × List Nat) :=
  match l with
  | [] => none
  | b :: rest => some (b, rest)

/-- `take_u64`: eight big-endian bytes. -/
def takeU64 (l : List Nat) : Option (Nat × List Nat) :=
  if 8 ≤ l.length then some (beVal (l.take 8), l.drop 8) else none

/-- `take_u32`: four big-endian bytes. -/
def takeU32 (l : List Nat) : Option (Nat × List Nat) :=
  if 4 ≤ l.length then some (beVal (l.take 4), l.drop 4) else none

/-- `take_bytes`: a `u32` length prefix followed by that many bytes. -/
def takeBytes (l : List Nat) : Option (List Nat × List Nat) :=
  match takeU32 l with
  | none => none
  | some (len, rest) =>
    if len ≤ rest.length then some (rest.take len, rest.drop len) else none

/-- A replication log entry. -/
structure Entry where
  index : Nat
  term : Nat
  data : List Nat
  deriving DecidableEq, Repr

/-- Modelled from the spec: `Entry::serialize` (`consensus/src/log.rs` is
not among the provided sources): `u64 index`, `u64 term`, length-prefixed
`data`. -/
def Entry.serialize (e : Entry) : List Nat :=
  putU64 e.index ++ putU64 e.term ++ putU32 e.data.length ++ e.data

/-- Modelled from the spec: `Entry::byte_size`. -/
def Entry.byteSize (e : Entry) : Nat := 8 + 8 + 4 + e.data.length

/-- Modelled from the spec: `Entry::deserialize`. -/
def Entry.deserialize (l : List Nat) : Option (Entry × List Nat) :=
  match takeU64 l with
  | none => none
  | some (index, l1) =>
    match takeU64 l1 with
    | none => none
    | some (term, l2) =>
      match takeBytes l2 with
      | none => none
      | some (data, l3) => some (⟨index, term, data⟩, l3)

/-- Serialize a vector of entries back to back, as the `for` loops do. -/
def serializeEntries (es : List Entry) : List Nat :=
  match es with
  | [] => []
  | e :: rest => e.serialize ++ serializeEntries rest

/-- Deserialize `n` consecutive entries. -/
def deserializeEntries : Nat → List Nat → Option (List Entry × List Nat)
  | 0, l => some ([], l)
  | n + 1, l =>
    match Entry.deserialize l with
    | none => none
    | some (e, l1) =>
      match deserializeEntries n l1 with
      | none => none
      | some (es, l2) => some (e :: es, l2)

/-- Replication requests (`Request` in `rpc.rs`). -/
inductive Request
  | preVote (lastIndex lastTerm : Nat)
  | requestVote (term lastIndex lastTerm : Nat)
  | appendEntries (term prevIndex prevTerm leaderCommit : Nat) (entries : List Entry)
  | logSync (lastIndex lastTerm : Nat)
  deriving DecidableEq, Repr

/-- `Request::serialize`: a one-byte tag then the payload fields in
order; `AppendEntries` writes the entry count as a `u64` then the
entries. -/
def Request.serialize : Request → List Nat
  | .preVote lastIndex lastTerm => 0x01 :: (putU64 lastIndex ++ putU64 lastTerm)
  | .requestVote term lastIndex lastTerm =>
    0x02 :: (putU64 term ++ putU64 lastIndex ++ putU64 lastTerm)
  | .appendEntries term prevIndex prevTerm leaderCommit entries =>
    0x03 :: (putU64 term ++ putU64 prevIndex ++ putU64 prevTerm ++
      putU64 leaderCommit ++ putU64 entries.length ++ serializeEntries entries)
  | .logSync lastIndex lastTerm => 0x04 :: (putU64 lastIndex ++ putU64 lastTerm)

/-- `Request::byte_size`: payload size plus one byte for the tag. -/
def Request.byteSize : Request → Nat
  | .preVote _ _ => 16 + 1
  | .requestVote _ _ _ => 24 + 1
  | .appendEntries _ _ _ _ entries =>
    40 + entries.foldl (fun acc e => acc + e.byteSize) 0 + 1
  | .logSync _ _ => 16 + 1

/-- `Request::deserialize`. -/
def Request.deserialize (l : List Nat) : Option (Request × List Nat) :=
  match takeU8 l with
  | none => none
  | some (tag, l0) =>
    if tag = 0x01 then
      match takeU64 l0 with
      | none => none
      | some (lastIndex, l1) =>
        match takeU64 l1 with
        | none => none
        | some (lastTerm, l2) => some (.preVote lastIndex lastTerm, l2)
    else if tag = 0x02 then
      match takeU64 l0 with
      | none => none
      | some (term, l1) =>
        match takeU64 l1 with
        | none => none
        | some (lastIndex, l2) =>
          match takeU64 l2 with
          | none => none
          | some (lastTerm, l3) => some (.requestVote term lastIndex lastTerm, l3)
    else if tag = 0x03 then
      match takeU64 l0 with
      | none => none
      | some (term, l1) =>
        match takeU64 l1 with
        | none => none
        | some (prevIndex, l2) =>
          match takeU64 l2 with
          | none => none
          | some (prevTerm, l3) =>
            match takeU64 l3 with
            | none => none
            | some (leaderCommit, l4) =>
              match takeU64 l4 with
              | none => none
              | some (len, l5) =>
                match deserializeEntries len l5 with
                | none => none
                | some (entries, l6) =>
                  some (.appendEntries term prevIndex prevTerm leaderCommit entries, l6)
    else if tag = 0x04 then
      match takeU64 l0 with
      | none => none
      | some (lastIndex, l1) =>
        match takeU64 l1 with
        | none => none
        | some (lastTerm, l2) => some (.logSync lastIndex lastTerm, l2)
    else none

/-- Replication responses (`Response` in `rpc.rs`). -/
inductive Response
  | preVote (approved : Bool)
  | requestVote (currentTerm : Nat) (approved : Bool)
  | appendEntries (currentTerm : Nat) (success : Bool) (index : Nat)
  | logSync (leaderCommit : Nat) (complete : Bool) (entries : List Entry)
  deriving DecidableEq, Repr

/-- Encoding of a boolean as the single byte `put_u8(b.into())` writes. -/
def boolByte (b : Bool) : Nat := if b then 1 else 0

/-- `Response::serialize`. -/
def Response.serialize : Response → List Nat
  | .preVote approved => [0x01, boolByte approved]
  | .requestVote currentTerm approved =>
    0x02 :: (putU64 currentTerm ++ [boolByte approved])
  | .appendEntries currentTerm success index =>
    0x03 :: (putU64 currentTerm ++ [boolByte success] ++ putU64 index)
  | .logSync leaderCommit complete entries =>
    0x04 :: (putU64 leaderCommit ++ [boolByte complete] ++
      putU64 entries.length ++ serializeEntries entries)

/-- `Response::byte_size`. -/
def Response.byteSize : Response → Nat
  | .preVote _ => 1 + 1
  | .requestVote _ _ => 9 + 1
  | .appendEntries _ _ _ => 17 + 1
  | .logSync _ _ entries =>
    17 + entries.foldl (fun acc e => acc + e.byteSize) 0 + 1

/-- `Response::deserialize`; note the deserialized `approved`, `success`
and `complete` flags are `byte != 0`. -/
def Response.deserialize (l : List Nat) : Option (Response × List Nat) :=
  match takeU8 l with
  | none => none
  | some (tag, l0) =>
    if tag = 0x01 then
      match takeU8 l0 with
      | none => none
      | some (b, l1) => some (.preVote (b ≠ 0), l1)
    else if tag = 0x02 then
      match takeU64 l0 with
      | none => none
      | some (currentTerm, l1) =>
        match takeU8 l1 with
        | none => none
        | some (b, l2) => some (.requestVote currentTerm (b ≠ 0), l2)
    else if tag = 0x03 then
      match takeU64 l0 with
      | none => none
      | some (currentTerm, l1) =>
        match takeU8 l1 with
        | none => none
        | some (b, l2) =>
          match takeU64 l2 with
          | none => none
          | some (index, l3) => some (.appendEntries currentTerm (b ≠ 0) index, l3)
    else if tag = 0x04 then
      match takeU64 l0 with
      | none => none
      | some (leaderCommit, l1) =>
        match takeU8 l1 with
        | none => none
        | some (b, l2) =>
          match takeU64 l2 with
          | none => none
          | some (len, l3) =>
            match deserializeEntries len l3 with
            | none => none
            | some (entries, l4) => some (.logSync leaderCommit (b ≠ 0) entries, l4)
    else none

/-- Well-formed entry: the `u64` fields fit and the data fits its `u32`
length prefix. -/
def Entry.wf (e : Entry) : Prop :=
  e.index < 2 ^ 64 ∧ e.term < 2 ^ 64 ∧ e.data.length < 2 ^ 32

/-- Well-formed request: every `u64` field fits and all entries are
well formed. -/
def Request.wf : Request → Prop
  | .preVote lastIndex lastTerm => lastIndex < 2 ^ 64 ∧ lastTerm < 2 ^ 64
  | .requestVote term lastIndex lastTerm =>
    term < 2 ^ 64 ∧ lastIndex < 2 ^ 64 ∧ lastTerm < 2 ^ 64
  | .appendEntries term prevIndex prevTerm leaderCommit entries =>
    term < 2 ^ 64 ∧ prevIndex < 2 ^ 64 ∧ prevTerm < 2 ^ 64 ∧
      leaderCommit < 2 ^ 64 ∧ entries.length < 2 ^ 64 ∧
      ∀ e ∈ entries, e.wf
  | .logSync lastIndex lastTerm => lastIndex < 2 ^ 64 ∧ lastTerm < 2 ^ 64

/-- Well-formed response. -/
def Response.wf : Response → Prop
  | .preVote _ => True
  | .requestVote currentTerm _ => currentTerm < 2 ^ 64
  | .appendEntries currentTerm _ index => currentTerm < 2 ^ 64 ∧ index < 2 ^ 64
  | .logSync leaderCommit _ entries =>
    leaderCommit < 2 ^ 64 ∧ entries.length < 2 ^ 64 ∧ ∀ e ∈ entries, e.wf

/-!
Key WIF encoding, embedded from
`src/crates/godcoin/src/godcoin/crypto/key.rs`.  Strings are modelled as
their byte sequences (Rust slices strings by bytes: `&s[0..3]`).
Base-58 and double SHA-256 are external collaborators (the spec keeps
them out of scope beyond round-trip), so they enter as function
parameters: `b58enc` with a decoding left inverse, and `dsha` for
`double_sha256`.  Ed25519 key derivation from a seed
(`keypair_from_seed`) is likewise a parameter.
-/

/-- WIF decoding error kinds (`WifErrorKind`). -/
inductive WifErrorKind
  | invalidLen
  | invalidPrefix
  | invalidBs58Encoding
  | invalidChecksum
  deriving DecidableEq, Repr

/-- The ASCII tag `"GOD"` prepended to public-key WIF strings
(`PUB_ADDRESS_PREFIX`). -/
def pubAddressTag : List Nat := [0x47, 0x4F, 0x44]

/-- The byte prepended to a private-key seed before encoding
(`PRIV_BUF_PREFIX`). -/
def privBufTag : Nat := 0x01

/-- The byte prepended to a public key before encoding
(`PUB_BUF_PREFIX`). -/
def pubBufTag : Nat := 0x02

/-- `PublicKey::to_wif`: prefix byte, key bytes, the first four bytes of
the double SHA-256 of the prefixed blob, base-58, then the ASCII tag. -/
def pubKeyToWif (b58enc : List Nat → List Nat) (dsha : List Nat → List Nat)
    (key : List Nat) : List Nat :=
  let buf := pubBufTag :: key
  pubAddressTag ++ b58enc (buf ++ (dsha buf).take 4)

/-- `PublicKey::from_wif`. -/
def pubKeyFromWif (b58dec : List Nat → Option (List Nat))
    (dsha : List Nat → List Nat) (s : List Nat) :
    Except WifErrorKind (List Nat) :=
  if s.length < 3 ∨ s.take 3 ≠ pubAddressTag then .error .invalidPrefix
  else
    match b58dec (s.drop 3) with
    | none => .error .invalidBs58Encoding
    | some raw =>
      if raw.length ≠ 37 then .error .invalidLen
      else if raw.headD 0 ≠ pubBufTag then .error .invalidPrefix
      else
        let prefixed := raw.take (raw.length - 4)
        if raw.drop (raw.length - 4) ≠ (dsha prefixed).take 4 then
          .error .invalidChecksum
        else .ok (prefixed.drop 1)

/-- A key pair: the public key bytes, the seed, and the secret key
identity.  `gen_keypair` and `from_wif` both build it so that public and
secret key are derived from the seed. -/
structure KeyPair where
  pubKey : List Nat
  seed : List Nat
  secKey : Nat
  deriving DecidableEq, Repr

/-- `PrivateKey::to_wif`: prefix byte, seed bytes, four checksum bytes,
base-58, no ASCII tag. -/
def privKeyToWif (b58enc : List Nat → List Nat) (dsha : List Nat → List Nat)
    (seed : List Nat) : List Nat :=
  let buf := privBufTag :: seed
  b58enc (buf ++ (dsha buf).take 4)

/-- `PrivateKey::from_wif`: decode, check length, prefix byte and
checksum, then rebuild the whole key pair from the recovered seed via
`keypair_from_seed` (the parameter `derive`). -/
def privKeyFromWif (b58dec : List Nat → Option (List Nat))
    (dsha : List Nat → List Nat) (derive : List Nat → List Nat × Nat)
    (s : List Nat) : Except WifErrorKind KeyPair :=
  match b58dec s with
  | none => .error .invalidBs58Encoding
  | some raw =>
    if raw.length ≠ 37 then .error .invalidLen
    else if raw.headD 0 ≠ privBufTag then .error .invalidPrefix
    else
      let key := raw.take (raw.length - 4)
      if raw.drop (raw.length - 4) ≠ (dsha key).take 4 then
        .error .invalidChecksum
      else
        let seed := key.drop 1
        let pk := (derive seed).1
        .ok ⟨pk, seed, (derive seed).2⟩

/-!
Theorems.
-/


/-- Exhaustive shape of one decoding step at an in-bounds position: it is
either a decoded op at a strictly larger position still within the
script, or an error; never a silent end-of-script. -/
theorem decodeByte_shape (script : List Nat) (pos byte : Nat)
    (hlt : pos < script.length) :
    (∃ op pos2, decodeByte script pos byte = .ok (some (op, pos2)) ∧
      pos < pos2 ∧ pos2 ≤ script.length) ∨
    (∃ e, decodeByte script pos byte = .error e) := by
  unfold decodeByte
  by_cases c0 : byte = bytePushFalse
  · rw [if_pos c0]
    exact Or.inl ⟨_, _, rfl, by omega, by omega⟩
  rw [if_neg c0]
  by_cases c1 : byte = bytePushTrue
  · rw [if_pos c1]
    exact Or.inl ⟨_, _, rfl, by omega, by omega⟩
  rw [if_neg c1]
  by_cases c2 : byte = bytePushPubKey
  · rw [if_pos c2]
    by_cases c2a : pos + 1 + 32 ≤ script.length
    · rw [if_pos c2a]
      exact Or.inl ⟨_, _, rfl, by omega, by omega⟩
    · rw [if_neg c2a]
      exact Or.inr ⟨_, rfl⟩
  rw [if_neg c2]
  by_cases c3 : byte = byteOpNot
  · rw [if_pos c3]
    exact Or.inl ⟨_, _, rfl, by omega, by omega⟩
  rw [if_neg c3]
  by_cases c4 : byte = byteOpIf
  · rw [if_pos c4]
    exact Or.inl ⟨_, _, rfl, by omega, by omega⟩
  rw [if_neg c4]
  by_cases c5 : byte = byteOpElse
  · rw [if_pos c5]
    exact Or.inl ⟨_, _, rfl, by omega, by omega⟩
  rw [if_neg c5]
  by_cases c6 : byte = byteOpEndIf
  · rw [if_pos c6]
    exact Or.inl ⟨_, _, rfl, by omega, by omega⟩
  rw [if_neg c6]
  by_cases c7 : byte = byteOpReturn
  · rw [if_pos c7]
    exact Or.inl ⟨_, _, rfl, by omega, by omega⟩
  rw [if_neg c7]
  by_cases c8 : byte = byteOpCheckSig
  · rw [if_pos c8]
    exact Or.inl ⟨_, _, rfl, by omega, by omega⟩
  rw [if_neg c8]
  by_cases c9 : byte = byteOpCheckMultiSig
  · rw [if_pos c9]
    by_cases c9a : pos + 1 < script.length
    · rw [dif_pos c9a]
      by_cases c9b : pos + 2 < script.length
      · rw [dif_pos c9b]
        exact Or.inl ⟨_, _, rfl, by omega, by omega⟩
      · rw [dif_neg c9b]
        exact Or.inr ⟨_, rfl⟩
    · rw [dif_neg c9a]
      exact Or.inr ⟨_, rfl⟩
  rw [if_neg c9]
  exact Or.inr ⟨_, rfl⟩

/-- C10: for every script and byte position within bounds, one decoding
step either reports the exact end of the script, fails, or returns a
strictly advanced position that is still within bounds — so evaluation,
which starts at position 0 and only moves to positions returned by
`consumeOp`, keeps `pos ≤ script.length` throughout and the direct byte
index in `consume_op` is always in bounds.  Moreover the multi-byte
operand reads are bounds-checked: a push-pubkey opcode with fewer than 32
bytes after it, and a check-multisig opcode whose threshold or key-count
byte is past the end, fail with `UnexpectedEOF`. -/
theorem consumeOp_bounds (script : List Nat) (pos : Nat)
    (hpos : pos ≤ script.length) :
    ((consumeOp script pos = .ok none ∧ pos = script.length) ∨
      (∃ e, consumeOp script pos = .error e) ∨
      (∃ op pos2, consumeOp script pos = .ok (some (op, pos2)) ∧
        pos < pos2 ∧ pos2 ≤ script.length)) ∧
    (∀ h : pos < script.length,
      script.get ⟨pos, h⟩ = bytePushPubKey → script.length < pos + 33 →
      consumeOp script pos = .error ⟨pos + 1, .unexpectedEOF⟩) ∧
    (∀ h : pos < script.length,
      script.get ⟨pos, h⟩ = byteOpCheckMultiSig → script.length ≤ pos + 1 →
      consumeOp script pos = .error ⟨pos + 1, .unexpectedEOF⟩) ∧
    (∀ h : pos < script.length,
      script.get ⟨pos, h⟩ = byteOpCheckMultiSig → script.length = pos + 2 →
      consumeOp script pos = .error ⟨pos + 2, .unexpectedEOF⟩) := by
  refine ⟨?_, ?_, ?_, ?_⟩
  · rcases Nat.lt_or_ge pos script.length with h | h
    · rw [consumeOp, dif_pos h]
      rcases decodeByte_shape script pos (script.get ⟨pos, h⟩) h with
        ⟨op, pos2, heq, hl, hr⟩ | ⟨e, heq⟩
      · exact Or.inr (Or.inr ⟨op, pos2, heq, hl, hr⟩)
      · exact Or.inr (Or.inl ⟨e, heq⟩)
    · have hpe : pos = script.length := le_antisymm hpos h
      refine Or.inl ⟨?_, hpe⟩
      rw [consumeOp, dif_neg (by omega)]
  · intro h hbyte hshort
    rw [consumeOp, dif_pos h, hbyte]
    unfold decodeByte
    rw [if_neg (by decide), if_neg (by decide), if_pos rfl, if_neg (by omega)]
  · intro h hbyte hshort
    rw [consumeOp, dif_pos h, hbyte]
    unfold decodeByte
    rw [if_neg (by decide), if_neg (by decide), if_neg (by decide),
      if_neg (by decide), if_neg (by decide), if_neg (by decide),
      if_neg (by decide), if_neg (by decide), if_neg (by decide),
      if_pos rfl, dif_neg (by omega)]
  · intro h hbyte hlen
    rw [consumeOp, dif_pos h, hbyte]
    unfold decodeByte
    rw [if_neg (by decide), if_neg (by decide), if_neg (by decide),
      if_neg (by decide), if_neg (by decide), if_neg (by decide),
      if_neg (by decide), if_neg (by decide), if_neg (by decide),
      if_pos rfl, dif_pos (by omega), dif_neg (by omega)]

/-- C10 witness: a lone push-pubkey opcode is truncated and decoding it
fails with `UnexpectedEOF`, while decoding a one-byte push-true script
advances in bounds. -/
theorem consumeOp_bounds_witness :
    consumeOp [bytePushPubKey] 0 = .error ⟨1, .unexpectedEOF⟩ ∧
      (consumeOp [bytePushTrue] 0 = .ok none ∧ (0 : Nat) = 1 ∨
        (∃ e, consumeOp [bytePushTrue] 0 = .error e) ∨
        (∃ op pos2, consumeOp [bytePushTrue] 0 = .ok (some (op, pos2)) ∧
          0 < pos2 ∧ pos2 ≤ 1)) := by
  constructor
  · exact (consumeOp_bounds [bytePushPubKey] 0 (by decide)).2.1 (by decide)
      (by decide) (by decide)
  · exact (consumeOp_bounds [bytePushTrue] 0 (by decide)).1

/-- A signature oracle rejecting everything, for concrete evaluations that
use no signatures. -/
def oracleNone : List Nat → Nat → Bool := fun _ _ => false

/-- C5 counterexample: the script pushing `true` twice reaches the end of
the script with two booleans on the stack, yet evaluation succeeds — the
final pop only inspects the top frame, so success does not require the
stack to hold exactly one boolean. -/
theorem eval_end_counterexample :
    eval oracleNone [] [bytePushTrue, bytePushTrue] =
      .ok (true, [.bool true]) := by
  decide

/-- C5 as corrected: on reaching `OpReturn`, and likewise on reaching the
end of the script with no `OpIf` left open, evaluation pops the top of
the stack as its result: it succeeds with that boolean if the top frame
is a boolean, whatever lies beneath it, and fails with
`InvalidItemOnStack` if the top frame is a public key or the stack is
empty; the end of the script with an `OpIf` still open is
`UnexpectedEOF`. -/
theorem eval_return_and_end (verify : List Nat → Nat → Bool)
    (sigPairs : List (List Nat × Nat)) (script : List Nat)
    (fuel pos pos2 : Nat) (ifMarker : Int) (ignoreElse : Bool)
    (stack : List StackItem) (hfuel : 0 < fuel) :
    (consumeOp script pos = .ok none →
      (0 < ifMarker →
        evalLoop fuel verify sigPairs script pos ifMarker ignoreElse stack =
          .error ⟨pos, .unexpectedEOF⟩) ∧
      (ifMarker ≤ 0 →
        (∀ b rest, stack = .bool b :: rest →
          evalLoop fuel verify sigPairs script pos ifMarker ignoreElse stack =
            .ok (b, rest)) ∧
        (∀ k rest, stack = .pubKey k :: rest →
          evalLoop fuel verify sigPairs script pos ifMarker ignoreElse stack =
            .error ⟨pos, .invalidItemOnStack⟩) ∧
        (stack = [] →
          evalLoop fuel verify sigPairs script pos ifMarker ignoreElse stack =
            .error ⟨pos, .invalidItemOnStack⟩))) ∧
    (consumeOp script pos = .ok (some (.opReturn, pos2)) →
      (∀ b rest, stack = .bool b :: rest →
        evalLoop fuel verify sigPairs script pos ifMarker ignoreElse stack =
          .ok (b, rest)) ∧
      (∀ k rest, stack = .pubKey k :: rest →
        evalLoop fuel verify sigPairs script pos ifMarker ignoreElse stack =
          .error ⟨pos2, .invalidItemOnStack⟩) ∧
      (stack = [] →
        evalLoop fuel verify sigPairs script pos ifMarker ignoreElse stack =
          .error ⟨pos2, .invalidItemOnStack⟩)) := by
  obtain ⟨f, rfl⟩ : ∃ f, fuel = f + 1 :=
    ⟨fuel - 1, by omega⟩
  constructor
  · intro h
    constructor
    · intro hm
      simp [evalLoop, h, hm]
    · intro hm
      have hnm : ¬ (0 < ifMarker) := by omega
      refine ⟨?_, ?_, ?_⟩
      · intro b rest hs
        subst hs
        simp [evalLoop, h, hnm, popBool]
      · intro k rest hs
        subst hs
        simp [evalLoop, h, hnm, popBool]
      · intro hs
        subst hs
        simp [evalLoop, h, hnm, popBool]
  · intro h
    refine ⟨?_, ?_, ?_⟩
    · intro b rest hs
      subst hs
      simp [evalLoop, h, popBool]
    · intro k rest hs
      subst hs
      simp [evalLoop, h, popBool]
    · intro hs
      subst hs
      simp [evalLoop, h, popBool]

/-- C5 witness: a script that is a single `OpReturn` after pushing `true`
returns that boolean, applying the corrected end/return behaviour at a
concrete input. -/
theorem eval_return_and_end_witness :
    evalLoop 2 oracleNone [] [bytePushTrue, byteOpReturn] 1 0 false
      [.bool true] = .ok (true, []) := by
  exact ((eval_return_and_end oracleNone [] [bytePushTrue, byteOpReturn]
    2 1 2 0 false [.bool true] (by decide)).2 (by decide)).1 true [] rfl

/-- A key whose first matching signature pair fails verification — the
condition that makes the multisig key loop abort with a forced `false`
result. -/
def multisigKeyBad (verify : List Nat → Nat → Bool)
    (sigPairs : List (List Nat × Nat)) (k : List Nat) : Bool :=
  match findSigPair sigPairs k with
  | some p => !(verify k p.2)
  | none => false

/-- Formalizes the result C1 predicts for `OpCheckMultiSig(t, n)` applied
to the popped keys: `true` for `t = 0`, `false` for `t > n`, otherwise
whether at least `t` of the keys have a matching pair that verifies. -/
def claimMultiSigResult (verify : List Nat → Nat → Bool)
    (sigPairs : List (List Nat × Nat)) (threshold : Nat)
    (keys : List (List Nat)) : Bool :=
  if threshold = 0 then true
  else if keys.length < threshold then false
  else decide (threshold ≤ (keys.filter (checkSig verify sigPairs)).length)

/-- First multisig counterexample key (32 bytes of 1). -/
def cxKeyA : List Nat := List.replicate 32 1

/-- Second multisig counterexample key (32 bytes of 2). -/
def cxKeyB : List Nat := List.replicate 32 2

/-- A concrete verification oracle accepting only `cxKeyA` with
signature 1. -/
def cxOracle : List Nat → Nat → Bool := fun k s => k == cxKeyA && s == 1

/-- Concrete signature pairs: a verifying pair for `cxKeyA` and a failing
pair for `cxKeyB`. -/
def cxSigPairs : List (List Nat × Nat) := [(cxKeyA, 1), (cxKeyB, 2)]

/-- The counterexample script: push `cxKeyB`, push `cxKeyA`, then
`OpCheckMultiSig(1, 2)`. -/
def cxScript : List Nat :=
  bytePushPubKey :: cxKeyB ++ bytePushPubKey :: cxKeyA ++
    [byteOpCheckMultiSig, 1, 2]

/-- C1 counterexample: with threshold 1 over the popped keys
`[cxKeyA, cxKeyB]`, the key `cxKeyA` has a verifying matching pair, so
the claim's count is 1 ≥ 1 and it predicts `true`; the engine, however,
aborts the key loop as soon as `cxKeyB`'s matching pair fails
verification and pushes `false`, so the whole evaluation returns
`false`. -/
theorem eval_multisig_counterexample :
    eval cxOracle cxSigPairs cxScript = .ok (false, []) ∧
      claimMultiSigResult cxOracle cxSigPairs 1 [cxKeyA, cxKeyB] = true := by
  decide

/-- The multisig pop loop returns exactly the pushed keys in stack order,
leaving the remainder of the stack intact. -/
theorem popPubKeys_map (keys : List (List Nat)) (rest : List StackItem) :
    popPubKeys keys.length (keys.map StackItem.pubKey ++ rest) =
      .ok (keys, rest) := by
  induction keys with
  | nil => simp [popPubKeys]
  | cons k ks ih => simp [popPubKeys, popPubKey, ih]

/-- The key loop succeeds exactly when no key has a matching pair that
fails verification. -/
theorem multisigScan_success (verify : List Nat → Nat → Bool)
    (sigPairs : List (List Nat × Nat)) (keys : List (List Nat)) (acc : Nat) :
    (multisigScan verify sigPairs keys acc).1 =
      !(keys.any (multisigKeyBad verify sigPairs)) := by
  induction keys generalizing acc with
  | nil => simp [multisigScan]
  | cons k ks ih =>
    simp only [multisigScan, List.any_cons, multisigKeyBad]
    cases hf : findSigPair sigPairs k with
    | none => simp [ih]
    | some p =>
      by_cases hv : verify k p.2
      · simp [hv, ih]
      · simp [hv]

/-- When no key aborts the loop, the count it accumulates is the number
of keys whose matching pair verifies. -/
theorem multisigScan_count (verify : List Nat → Nat → Bool)
    (sigPairs : List (List Nat × Nat)) (keys : List (List Nat)) (acc : Nat)
    (h : keys.any (multisigKeyBad verify sigPairs) = false) :
    (multisigScan verify sigPairs keys acc).2 =
      acc + (keys.filter (checkSig verify sigPairs)).length := by
  induction keys generalizing acc with
  | nil => simp [multisigScan]
  | cons k ks ih =>
    simp only [List.any_cons, Bool.or_eq_false_iff] at h
    obtain ⟨hk, hks⟩ := h
    rw [List.filter_cons]
    cases hf : findSigPair sigPairs k with
    | none =>
      have hcs : checkSig verify sigPairs k = false := by simp [checkSig, hf]
      simp only [multisigScan, hf]
      simp [hcs, ih _ hks]
    | some p =>
      have hv : verify k p.2 = true := by
        simpa [multisigKeyBad, hf] using hk
      have hcs : checkSig verify sigPairs k = true := by simp [checkSig, hf, hv]
      simp only [multisigScan, hf, hv, if_true]
      rw [ih _ hks]
      simp [hcs]
      omega

/-- C1 as corrected: `OpCheckMultiSig(t, n)` applied where the top of the
stack holds `n` public keys first pops exactly those keys in stack order;
`t = 0` pushes `true` and `t > n` pushes `false` (the keys being popped
either way); otherwise the engine scans the transaction's signature
pairs, matching each key against at most its first matching pair — but if
any key's matching pair fails verification the scan aborts and `false` is
pushed even when the count of verifying keys already reaches `t`; only
when every matched pair verifies is the pushed value `count ≥ t`.  The
final conjunct places this inside script evaluation: an
`OpCheckMultiSig` step rewrites the stack accordingly and continues. -/
theorem execMultiSig_spec (verify : List Nat → Nat → Bool)
    (sigPairs : List (List Nat × Nat)) (threshold : Nat)
    (keys : List (List Nat)) (rest : List StackItem) :
    popPubKeys keys.length (keys.map StackItem.pubKey ++ rest) =
      .ok (keys, rest) ∧
    execMultiSig verify sigPairs threshold keys.length
        (keys.map StackItem.pubKey ++ rest) =
      .ok (.bool (
        if threshold = 0 then true
        else if keys.length < threshold then false
        else if keys.any (multisigKeyBad verify sigPairs) then false
        else claimMultiSigResult verify sigPairs threshold keys) :: rest) ∧
    (∀ script fuel pos pos2 ifMarker ignoreElse,
      consumeOp script pos =
        .ok (some (.opCheckMultiSig threshold keys.length, pos2)) →
      evalLoop (fuel + 1) verify sigPairs script pos ifMarker ignoreElse
          (keys.map StackItem.pubKey ++ rest) =
        evalLoop fuel verify sigPairs script pos2 ifMarker ignoreElse
          (.bool (
            if threshold = 0 then true
            else if keys.length < threshold then false
            else if keys.any (multisigKeyBad verify sigPairs) then false
            else claimMultiSigResult verify sigPairs threshold keys) :: rest)) := by
  have hexec : execMultiSig verify sigPairs threshold keys.length
      (keys.map StackItem.pubKey ++ rest) =
      .ok (.bool (
        if threshold = 0 then true
        else if keys.length < threshold then false
        else if keys.any (multisigKeyBad verify sigPairs) then false
        else claimMultiSigResult verify sigPairs threshold keys) :: rest) := by
    unfold execMultiSig
    rw [popPubKeys_map]
    by_cases h0 : threshold = 0
    · simp [h0]
    rw [if_neg h0]
    by_cases h1 : keys.length < threshold
    · simp [h0, h1]
    rw [if_neg h1]
    simp only [h0, if_neg h0, if_neg h1, ite_false]
    by_cases h2 : keys.any (multisigKeyBad verify sigPairs)
    · rw [multisigScan_success]
      simp [h2]
    · rw [multisigScan_success]
      have h2f : keys.any (multisigKeyBad verify sigPairs) = false := by
        simpa using h2
      simp only [h2f, Bool.not_false, if_pos rfl, if_true]
      rw [multisigScan_count verify sigPairs keys 0 h2f]
      simp [claimMultiSigResult, h0, h1]
  refine ⟨popPubKeys_map keys rest, hexec, ?_⟩
  intro script fuel pos pos2 ifMarker ignoreElse hc
  simp [evalLoop, hc, hexec]

/-- C1 witness: the pop-then-scan behaviour applied at a concrete input,
one verifying key against a threshold of 1. -/
theorem execMultiSig_spec_witness :
    execMultiSig cxOracle cxSigPairs 1 1 [StackItem.pubKey cxKeyA] =
      .ok [.bool true] := by
  have h := (execMultiSig_spec cxOracle cxSigPairs 1 [cxKeyA] []).2.1
  simpa using h

/-- Decode the whole script into its op sequence (used only to state what
C6 quantifies over). -/
def decodeOps (fuel : Nat) (script : List Nat) (pos : Nat) :
    Option (List OpFrame) :=
  match fuel with
  | 0 => none
  | fuel + 1 =>
    match consumeOp script pos with
    | .error _ => none
    | .ok none => some []
    | .ok (some (op, pos2)) =>
      match decodeOps fuel script pos2 with
      | none => none
      | some ops => some (op :: ops)

/-- Net `OpIf` nesting left open over an op sequence. -/
def ifDepth (ops : List OpFrame) : Int :=
  ops.foldl
    (fun d op => if op = .opIf then d + 1 else if op = .opEndIf then d - 1 else d)
    0

/-- Formalizes C6's hypothesis: the script decodes completely and some
`OpIf` is left without a matching `OpEndIf` before the end of the
script. -/
def hasUnendedIf (script : List Nat) : Bool :=
  match decodeOps (script.length + 1) script 0 with
  | none => false
  | some ops => 0 < ifDepth ops

/-- C6 counterexample: `[PushTrue, OpIf, PushTrue, OpReturn]` contains an
`OpIf` never ended by an `OpEndIf`, yet evaluation does not fail with
`UnexpectedEOF` — the `OpReturn` inside the taken branch resets the
marker and the script succeeds, returning `true`. -/
theorem eval_unendedIf_counterexample :
    hasUnendedIf [bytePushTrue, byteOpIf, bytePushTrue, byteOpReturn] = true ∧
      eval oracleNone [] [bytePushTrue, byteOpIf, bytePushTrue, byteOpReturn] =
        .ok (true, []) := by
  decide

/-- Decoding at a position from which every remaining byte is the
push-true opcode yields that opcode and advances one byte. -/
theorem consumeOp_true_suffix (script : List Nat) (pos : Nat)
    (hlen : pos < script.length)
    (hones : ∀ i, pos ≤ i → ∀ hi : i < script.length,
      script.get ⟨i, hi⟩ = bytePushTrue) :
    consumeOp script pos = .ok (some (.opTrue, pos + 1)) := by
  rw [consumeOp, dif_pos hlen, hones pos le_rfl hlen]
  rfl

/-- Skipping an untaken branch over a push-true tail runs off the end of
the script and fails with `UnexpectedEOF` there. -/
theorem skipBranch_true_suffix (script : List Nat) :
    ∀ fuel pos, pos ≤ script.length → script.length - pos < fuel →
    (∀ i, pos ≤ i → ∀ hi : i < script.length,
      script.get ⟨i, hi⟩ = bytePushTrue) →
    ∀ ifMarker req : Int,
      skipBranch fuel script pos ifMarker req =
        .error ⟨script.length, .unexpectedEOF⟩ := by
  intro fuel
  induction fuel with
  | zero => intro pos hpos hfuel hones ifMarker req; omega
  | succ f ih =>
    intro pos hpos hfuel hones ifMarker req
    rcases Nat.lt_or_ge pos script.length with hlt | hge
    · rw [skipBranch, consumeOp_true_suffix script pos hlt hones]
      exact ih (pos + 1) (by omega) (by omega)
        (fun i hge hi => hones i (by omega) hi) ifMarker req
    · have hpe : pos = script.length := le_antisymm hpos hge
      rw [skipBranch]
      have hnone : consumeOp script pos = .ok none := by
        rw [consumeOp, dif_neg (by omega)]
      rw [hnone, hpe]

/-- Running the main loop with an open `OpIf` over a push-true tail
reaches the end of the script and fails with `UnexpectedEOF` there. -/
theorem evalLoop_true_suffix (verify : List Nat → Nat → Bool)
    (sigPairs : List (List Nat × Nat)) (script : List Nat) :
    ∀ fuel pos, pos ≤ script.length → script.length - pos < fuel →
    (∀ i, pos ≤ i → ∀ hi : i < script.length,
      script.get ⟨i, hi⟩ = bytePushTrue) →
    ∀ ifMarker : Int, 0 < ifMarker → ∀ ignoreElse stack,
      evalLoop fuel verify sigPairs script pos ifMarker ignoreElse stack =
        .error ⟨script.length, .unexpectedEOF⟩ := by
  intro fuel
  induction fuel with
  | zero => intro pos hpos hfuel; omega
  | succ f ih =>
    intro pos hpos hfuel hones ifMarker hm ignoreElse stack
    rcases Nat.lt_or_ge pos script.length with hlt | hge
    · rw [evalLoop, consumeOp_true_suffix script pos hlt hones]
      exact ih (pos + 1) (by omega) (by omega)
        (fun i hge hi => hones i (by omega) hi) ifMarker hm ignoreElse _
    · have hpe : pos = script.length := le_antisymm hpos hge
      have hnone : consumeOp script pos = .ok none := by
        rw [consumeOp, dif_neg (by omega)]
      rw [evalLoop, hnone, if_pos hm, hpe]

/-- One loop step on a decoded push-true opcode pushes `true` and
continues. -/
theorem evalLoop_step_pushTrue (verify : List Nat → Nat → Bool)
    (sigPairs : List (List Nat × Nat)) (script : List Nat)
    (fuel pos pos2 : Nat) (ifMarker : Int) (ignoreElse : Bool)
    (stack : List StackItem)
    (h : consumeOp script pos = .ok (some (.opTrue, pos2))) :
    evalLoop (fuel + 1) verify sigPairs script pos ifMarker ignoreElse stack =
      evalLoop fuel verify sigPairs script pos2 ifMarker ignoreElse
        (.bool true :: stack) := by
  simp only [evalLoop, h]

/-- One loop step on a decoded push-false opcode pushes `false` and
continues. -/
theorem evalLoop_step_pushFalse (verify : List Nat → Nat → Bool)
    (sigPairs : List (List Nat × Nat)) (script : List Nat)
    (fuel pos pos2 : Nat) (ifMarker : Int) (ignoreElse : Bool)
    (stack : List StackItem)
    (h : consumeOp script pos = .ok (some (.opFalse, pos2))) :
    evalLoop (fuel + 1) verify sigPairs script pos ifMarker ignoreElse stack =
      evalLoop fuel verify sigPairs script pos2 ifMarker ignoreElse
        (.bool false :: stack) := by
  simp only [evalLoop, h]

/-- One loop step on `OpIf` popping `true` enters the branch with the
marker raised. -/
theorem evalLoop_step_if_true (verify : List Nat → Nat → Bool)
    (sigPairs : List (List Nat × Nat)) (script : List Nat)
    (fuel pos pos2 : Nat) (ifMarker : Int) (ignoreElse : Bool)
    (rest : List StackItem)
    (h : consumeOp script pos = .ok (some (.opIf, pos2))) :
    evalLoop (fuel + 1) verify sigPairs script pos ifMarker ignoreElse
        (.bool true :: rest) =
      evalLoop fuel verify sigPairs script pos2 (ifMarker + 1) true rest := by
  simp only [evalLoop, h, popBool]
  simp

/-- One loop step on `OpIf` popping `false` forwards a failing skip of
the untaken branch. -/
theorem evalLoop_step_if_false_err (verify : List Nat → Nat → Bool)
    (sigPairs : List (List Nat × Nat)) (script : List Nat)
    (fuel pos pos2 : Nat) (ifMarker : Int) (ignoreElse : Bool)
    (rest : List StackItem) (e : EvalErr)
    (h : consumeOp script pos = .ok (some (.opIf, pos2)))
    (hskip : skipBranch fuel script pos2 (ifMarker + 1) (ifMarker + 1) =
      .error e) :
    evalLoop (fuel + 1) verify sigPairs script pos ifMarker ignoreElse
        (.bool false :: rest) = .error e := by
  simp only [evalLoop, h, popBool, hskip]
  simp

/-- C6 as corrected.  First conjunct: a taken `OpIf` whose body runs to
the end of the script without a matching `OpEndIf` (here: any tail of
pushes) fails with `UnexpectedEOF` at the end position.  Second: the same
for the untaken branch being skipped.  Third: `OpIf` pops a boolean — an
empty stack or a public key on top fails with `InvalidItemOnStack`
instead.  Fourth: skipping counts nested `OpIf`/`OpEndIf` pairs, so an
inner `OpEndIf` does not terminate the skip of an outer branch.  The
claim's universal statement is refuted separately: an `OpReturn` inside
the unended body halts successfully. -/
theorem evalLoop_opIf_spec :
    (∀ (verify : List Nat → Nat → Bool) (sigPairs : List (List Nat × Nat))
      (n : Nat),
      eval verify sigPairs
          (bytePushTrue :: byteOpIf :: List.replicate n bytePushTrue) =
        .error ⟨n + 2, .unexpectedEOF⟩) ∧
    (∀ (verify : List Nat → Nat → Bool) (sigPairs : List (List Nat × Nat))
      (n : Nat),
      eval verify sigPairs
          (bytePushFalse :: byteOpIf :: List.replicate n bytePushTrue) =
        .error ⟨n + 2, .unexpectedEOF⟩) ∧
    (∀ (verify : List Nat → Nat → Bool) (sigPairs : List (List Nat × Nat))
      (script : List Nat) (fuel pos pos2 : Nat) (ifMarker : Int)
      (ignoreElse : Bool),
      consumeOp script pos = .ok (some (.opIf, pos2)) →
      evalLoop (fuel + 1) verify sigPairs script pos ifMarker ignoreElse [] =
        .error ⟨pos2, .invalidItemOnStack⟩ ∧
      ∀ k rest,
        evalLoop (fuel + 1) verify sigPairs script pos ifMarker ignoreElse
            (.pubKey k :: rest) =
          .error ⟨pos2, .invalidItemOnStack⟩) ∧
    (∀ (verify : List Nat → Nat → Bool) (sigPairs : List (List Nat × Nat)),
      eval verify sigPairs
          [bytePushFalse, byteOpIf, byteOpIf, byteOpEndIf, byteOpEndIf,
            bytePushTrue] =
        .ok (true, [])) := by
  have hones : ∀ (a b : Nat) (n : Nat) (i : Nat), 2 ≤ i →
      ∀ hi : i < (a :: b :: List.replicate n bytePushTrue).length,
        (a :: b :: List.replicate n bytePushTrue).get ⟨i, hi⟩ =
          bytePushTrue := by
    intro a b n i h2 hi
    match i, h2 with
    | (k + 2), _ =>
      have hk : k < n := by
        have := hi
        simp at this
        omega
      show (List.replicate n bytePushTrue).get ⟨k, _⟩ = bytePushTrue
      simp
  refine ⟨?_, ?_, ?_, ?_⟩
  · intro verify sigPairs n
    have hlen :
        (bytePushTrue :: byteOpIf :: List.replicate n bytePushTrue).length =
          n + 2 := by simp
    have hc0 : consumeOp
        (bytePushTrue :: byteOpIf :: List.replicate n bytePushTrue) 0 =
        .ok (some (.opTrue, 1)) := by
      rw [consumeOp, dif_pos (by omega)]
      rfl
    have hc1 : consumeOp
        (bytePushTrue :: byteOpIf :: List.replicate n bytePushTrue) 1 =
        .ok (some (.opIf, 2)) := by
      rw [consumeOp, dif_pos (by omega)]
      rfl
    rw [eval, hlen]
    rw [evalLoop_step_pushTrue _ _ _ _ _ _ _ _ _ hc0]
    rw [show n + 2 = (n + 1) + 1 from rfl]
    rw [evalLoop_step_if_true _ _ _ _ _ _ _ _ _ hc1]
    rw [← hlen]
    exact evalLoop_true_suffix verify sigPairs _ (n + 1) 2 (by omega)
      (by omega) (hones _ _ n) 1 (by omega) true []
  · intro verify sigPairs n
    have hlen :
        (bytePushFalse :: byteOpIf :: List.replicate n bytePushTrue).length =
          n + 2 := by simp
    have hc0 : consumeOp
        (bytePushFalse :: byteOpIf :: List.replicate n bytePushTrue) 0 =
        .ok (some (.opFalse, 1)) := by
      rw [consumeOp, dif_pos (by omega)]
      rfl
    have hc1 : consumeOp
        (bytePushFalse :: byteOpIf :: List.replicate n bytePushTrue) 1 =
        .ok (some (.opIf, 2)) := by
      rw [consumeOp, dif_pos (by omega)]
      rfl
    rw [eval, hlen]
    rw [evalLoop_step_pushFalse _ _ _ _ _ _ _ _ _ hc0]
    rw [show n + 2 = (n + 1) + 1 from rfl]
    refine evalLoop_step_if_false_err _ _ _ _ _ _ _ _ _ _ hc1 ?_
    rw [← hlen]
    exact skipBranch_true_suffix _ (n + 1) 2 (by omega) (by omega)
      (hones _ _ n) 1 1
  · intro verify sigPairs script fuel pos pos2 ifMarker ignoreElse h
    constructor
    · simp only [evalLoop, h, popBool]
    · intro k rest
      simp only [evalLoop, h, popBool]
  · intro verify sigPairs
    rfl

/-- C6 witness: the pops-a-boolean conjunct applied at a concrete input:
a lone `OpIf` on an empty stack fails with `InvalidItemOnStack`. -/
theorem evalLoop_opIf_spec_witness :
    evalLoop 1 oracleNone [] [byteOpIf] 0 0 false [] =
      .error ⟨1, .invalidItemOnStack⟩ := by
  exact (evalLoop_opIf_spec.2.2.1 oracleNone [] [byteOpIf] 0 0 1 0 false
    (by decide)).1

/-- The receipt loop of `verify_block` succeeds exactly when every
receipt's transaction executes successfully against the receipts
accumulated before it. -/
theorem runReceipts_ok_iff
    (execTx : TxVariantV0 → List Receipt → Except TxErr (List LogEntry)) :
    ∀ (rest done : List Receipt),
      runReceipts execTx done rest = .ok () ↔
        ∀ i, ∀ h : i < rest.length, ∃ log,
          execTx (rest.get ⟨i, h⟩).tx (done ++ rest.take i) = .ok log := by
  intro rest
  induction rest with
  | nil =>
    intro done
    simp [runReceipts]
  | cons r rs ih =>
    intro done
    simp only [runReceipts]
    cases he : execTx r.tx done with
    | error e =>
      constructor
      · intro hcontra
        cases hcontra
      · intro hall
        obtain ⟨log, hlog⟩ := hall 0 (by simp)
        simp only [List.get, List.take_zero, List.append_nil] at hlog
        rw [he] at hlog
        cases hlog
    | ok log0 =>
      rw [ih (done ++ [r])]
      constructor
      · intro hall i h
        match i, h with
        | 0, _ =>
          refine ⟨log0, ?_⟩
          simpa using he
        | j + 1, h =>
          obtain ⟨log, hlog⟩ := hall j (by simpa using h)
          refine ⟨log, ?_⟩
          simpa [List.append_assoc] using hlog
      · intro hall j h
        obtain ⟨log, hlog⟩ := hall (j + 1) (by simpa using h)
        refine ⟨log, ?_⟩
        simpa [List.append_assoc] using hlog

/-- C2: `verify_block` accepts exactly when, in this order, the height is
the predecessor's plus one, the recomputed receipt root matches the
stored one, the stored previous hash is the hash of the previous header,
the block carries a signer whose key is the owner's minter key and whose
signature verifies over the block header hash, and every receipt's
transaction executes successfully with the receipts before it as
additional receipts; each earlier failure yields the corresponding
error. -/
theorem verifyBlock_spec (calcRoot : List Receipt → Nat)
    (hashHeader : BlockHeader → Nat) (sigValid : SigPair → Nat → Bool)
    (ownerMinter : Nat)
    (execTx : TxVariantV0 → List Receipt → Except TxErr (List LogEntry))
    (block prev : Block) :
    (verifyBlock calcRoot hashHeader sigValid ownerMinter execTx block prev =
        .ok () ↔
      (prev.header.height + 1 = block.header.height ∧
        calcRoot block.receipts = block.header.receiptRoot ∧
        block.header.previousHash = hashHeader prev.header ∧
        ∃ s, block.signer = some s ∧ s.pubKey = ownerMinter ∧
          sigValid s (hashHeader block.header) = true ∧
          ∀ i, ∀ h : i < block.receipts.length, ∃ log,
            execTx (block.receipts.get ⟨i, h⟩).tx (block.receipts.take i) =
              .ok log)) ∧
    (prev.header.height + 1 ≠ block.header.height →
      verifyBlock calcRoot hashHeader sigValid ownerMinter execTx block prev =
        .error .invalidBlockHeight) ∧
    (prev.header.height + 1 = block.header.height →
      calcRoot block.receipts ≠ block.header.receiptRoot →
      verifyBlock calcRoot hashHeader sigValid ownerMinter execTx block prev =
        .error .invalidReceiptRoot) ∧
    (prev.header.height + 1 = block.header.height →
      calcRoot block.receipts = block.header.receiptRoot →
      block.header.previousHash ≠ hashHeader prev.header →
      verifyBlock calcRoot hashHeader sigValid ownerMinter execTx block prev =
        .error .invalidPrevHash) ∧
    (prev.header.height + 1 = block.header.height →
      calcRoot block.receipts = block.header.receiptRoot →
      block.header.previousHash = hashHeader prev.header →
      (block.signer = none ∨
        ∃ s, block.signer = some s ∧
          (s.pubKey ≠ ownerMinter ∨
            sigValid s (hashHeader block.header) = false)) →
      verifyBlock calcRoot hashHeader sigValid ownerMinter execTx block prev =
        .error .invalidSignature) := by
  refine ⟨?_, ?_, ?_, ?_, ?_⟩
  · constructor
    · intro hok
      by_cases h1 : prev.header.height + 1 = block.header.height
      case neg => simp [verifyBlock, h1] at hok
      by_cases h2 : calcRoot block.receipts = block.header.receiptRoot
      case neg => simp [verifyBlock, h1, h2] at hok
      by_cases h3 : block.header.previousHash = hashHeader prev.header
      case neg => simp [verifyBlock, h1, h2, h3] at hok
      cases hsig : block.signer with
      | none => simp [verifyBlock, h1, h2, h3, hsig] at hok
      | some s =>
        by_cases h4 : s.pubKey = ownerMinter
        case neg => simp [verifyBlock, h1, h2, h3, hsig, h4] at hok
        by_cases h5 : sigValid s (hashHeader block.header) = true
        case neg => simp [verifyBlock, h1, h2, h3, hsig, h4, h5] at hok
        have hrun : runReceipts execTx [] block.receipts = .ok () := by
          simpa [verifyBlock, h1, h2, h3, hsig, h4, h5] using hok
        refine ⟨h1, h2, h3, s, rfl, h4, h5, ?_⟩
        have := (runReceipts_ok_iff execTx block.receipts []).mp hrun
        simpa using this
    · rintro ⟨h1, h2, h3, s, hsig, h4, h5, hexec⟩
      have hrun : runReceipts execTx [] block.receipts = .ok () := by
        rw [runReceipts_ok_iff]
        simpa using hexec
      simp [verifyBlock, h1, h2, h3, hsig, h4, h5, hrun]
  · intro h1
    simp [verifyBlock, h1]
  · intro h1 h2
    simp [verifyBlock, h1, h2]
  · intro h1 h2 h3
    simp [verifyBlock, h1, h2, h3]
  · intro h1 h2 h3 h4
    rcases h4 with hnone | ⟨s, hsig, hbad⟩
    · simp [verifyBlock, h1, h2, h3, hnone]
    · rcases hbad with hk | hv
      · simp [verifyBlock, h1, h2, h3, hsig, hk]
      · simp [verifyBlock, h1, h2, h3, hsig, hv]

/-- C2 witness: a block whose height is not the predecessor's plus one is
rejected with `InvalidBlockHeight`, at a concrete input. -/
theorem verifyBlock_spec_witness :
    verifyBlock (fun _ => 0) (fun _ => 0) (fun _ _ => true) 0
        (fun _ _ => .ok []) ⟨⟨3, 0, 0, 0⟩, none, ⟨0⟩, []⟩
        ⟨⟨5, 0, 0, 0⟩, none, ⟨0⟩, []⟩ =
      .error .invalidBlockHeight := by
  exact (verifyBlock_spec (fun _ => 0) (fun _ => 0) (fun _ _ => true) 0
    (fun _ _ => .ok []) ⟨⟨3, 0, 0, 0⟩, none, ⟨0⟩, []⟩
    ⟨⟨5, 0, 0, 0⟩, none, ⟨0⟩, []⟩).2.1 (by decide)

/-- C3: the `Transfer` arm of `execute_tx` checks, in order: signature
count, script size, memo size (`TxTooLarge`), non-negative amount
(`InvalidAmount`), the address-info and total-fee arithmetic
(`Arithmetic`), fee at least `net_fee + addr_fee` (`InvalidFeeAmount`),
the sender address equal to the hash of the script
(`ScriptHashMismatch`), and the balance after subtracting fee and amount
being representable (`Arithmetic`) and non-negative; only then does the
script run, its effect log returned on success. -/
theorem executeTransferTx_spec (lim : Limits) (hashScript : List Nat → Nat)
    (info : Option AddressInfo) (scriptEval : Except EvalErr (List LogEntry))
    (tx : TransferTxD) :
    (lim.maxTxSignatures < tx.base.sigPairs.length →
      executeTransferTx lim hashScript info scriptEval tx =
        .error .tooManySignatures) ∧
    (tx.base.sigPairs.length ≤ lim.maxTxSignatures →
      lim.maxScriptByteSize < tx.script.length →
      executeTransferTx lim hashScript info scriptEval tx =
        .error .txTooLarge) ∧
    (tx.base.sigPairs.length ≤ lim.maxTxSignatures →
      tx.script.length ≤ lim.maxScriptByteSize →
      lim.maxMemoByteSize < tx.memo.length →
      executeTransferTx lim hashScript info scriptEval tx =
        .error .txTooLarge) ∧
    (tx.base.sigPairs.length ≤ lim.maxTxSignatures →
      tx.script.length ≤ lim.maxScriptByteSize →
      tx.memo.length ≤ lim.maxMemoByteSize →
      tx.amount.amount < 0 →
      executeTransferTx lim hashScript info scriptEval tx =
        .error .invalidAmount) ∧
    (tx.base.sigPairs.length ≤ lim.maxTxSignatures →
      tx.script.length ≤ lim.maxScriptByteSize →
      tx.memo.length ≤ lim.maxMemoByteSize →
      0 ≤ tx.amount.amount →
      info = none →
      executeTransferTx lim hashScript info scriptEval tx =
        .error .arithmetic) ∧
    (∀ i, tx.base.sigPairs.length ≤ lim.maxTxSignatures →
      tx.script.length ≤ lim.maxScriptByteSize →
      tx.memo.length ≤ lim.maxMemoByteSize →
      0 ≤ tx.amount.amount →
      info = some i →
      (i.netFee.checkedAdd i.addrFee = none →
        executeTransferTx lim hashScript info scriptEval tx =
          .error .arithmetic) ∧
      (∀ totalFee, i.netFee.checkedAdd i.addrFee = some totalFee →
        (tx.base.fee.amount < totalFee.amount →
          executeTransferTx lim hashScript info scriptEval tx =
            .error .invalidFeeAmount) ∧
        (totalFee.amount ≤ tx.base.fee.amount →
          tx.fromAddr ≠ hashScript tx.script →
          executeTransferTx lim hashScript info scriptEval tx =
            .error .scriptHashMismatch) ∧
        (totalFee.amount ≤ tx.base.fee.amount →
          tx.fromAddr = hashScript tx.script →
          (i.balance.checkedSub tx.base.fee = none →
            executeTransferTx lim hashScript info scriptEval tx =
              .error .arithmetic) ∧
          (∀ afterFee, i.balance.checkedSub tx.base.fee = some afterFee →
            (afterFee.checkedSub tx.amount = none →
              executeTransferTx lim hashScript info scriptEval tx =
                .error .arithmetic) ∧
            (∀ bal, afterFee.checkedSub tx.amount = some bal →
              (bal.amount < 0 →
                executeTransferTx lim hashScript info scriptEval tx =
                  .error .invalidAmount) ∧
              (0 ≤ bal.amount →
                (∀ log, scriptEval = .ok log →
                  executeTransferTx lim hashScript info scriptEval tx =
                    .ok log) ∧
                (∀ e, scriptEval = .error e →
                  executeTransferTx lim hashScript info scriptEval tx =
                    .error (.scriptEval e)))))))) := by
  refine ⟨?_, ?_, ?_, ?_, ?_, ?_⟩
  · intro h
    simp [executeTransferTx, h]
  · intro hs h
    simp [executeTransferTx, Nat.not_lt.mpr hs, h]
  · intro hs hscr h
    simp [executeTransferTx, Nat.not_lt.mpr hs, Nat.not_lt.mpr hscr, h]
  · intro hs hscr hm h
    simp [executeTransferTx, Nat.not_lt.mpr hs, Nat.not_lt.mpr hscr,
      Nat.not_lt.mpr hm, h]
  · intro hs hscr hm ha hinfo
    simp [executeTransferTx, Nat.not_lt.mpr hs, Nat.not_lt.mpr hscr,
      Nat.not_lt.mpr hm, Int.not_lt.mpr ha, hinfo]
  · intro i hs hscr hm ha hinfo
    constructor
    · intro hadd
      simp [executeTransferTx, Nat.not_lt.mpr hs, Nat.not_lt.mpr hscr,
        Nat.not_lt.mpr hm, Int.not_lt.mpr ha, hinfo, hadd]
    · intro totalFee hadd
      refine ⟨?_, ?_, ?_⟩
      · intro hfee
        simp [executeTransferTx, Nat.not_lt.mpr hs, Nat.not_lt.mpr hscr,
          Nat.not_lt.mpr hm, Int.not_lt.mpr ha, hinfo, hadd, hfee]
      · intro hfee hhash
        simp [executeTransferTx, Nat.not_lt.mpr hs, Nat.not_lt.mpr hscr,
          Nat.not_lt.mpr hm, Int.not_lt.mpr ha, hinfo, hadd,
          Int.not_lt.mpr hfee, hhash]
      · intro hfee hhash
        constructor
        · intro hsub
          simp [executeTransferTx, Nat.not_lt.mpr hs, Nat.not_lt.mpr hscr,
            Nat.not_lt.mpr hm, Int.not_lt.mpr ha, hinfo, hadd,
            Int.not_lt.mpr hfee, hhash, hsub]
        · intro afterFee hsub
          constructor
          · intro hsub2
            simp [executeTransferTx, Nat.not_lt.mpr hs, Nat.not_lt.mpr hscr,
              Nat.not_lt.mpr hm, Int.not_lt.mpr ha, hinfo, hadd,
              Int.not_lt.mpr hfee, hhash, hsub, hsub2]
          · intro bal hsub2
            constructor
            · intro hneg
              simp [executeTransferTx, Nat.not_lt.mpr hs, Nat.not_lt.mpr hscr,
                Nat.not_lt.mpr hm, Int.not_lt.mpr ha, hinfo, hadd,
                Int.not_lt.mpr hfee, hhash, hsub, hsub2, hneg]
            · intro hpos
              constructor
              · intro log hse
                simp [executeTransferTx, Nat.not_lt.mpr hs, Nat.not_lt.mpr hscr,
                  Nat.not_lt.mpr hm, Int.not_lt.mpr ha, hinfo, hadd,
                  Int.not_lt.mpr hfee, hhash, hsub, hsub2, Int.not_lt.mpr hpos,
                  hse]
              · intro e hse
                simp [executeTransferTx, Nat.not_lt.mpr hs, Nat.not_lt.mpr hscr,
                  Nat.not_lt.mpr hm, Int.not_lt.mpr ha, hinfo, hadd,
                  Int.not_lt.mpr hfee, hhash, hsub, hsub2, Int.not_lt.mpr hpos,
                  hse]

/-- C3 witness: a transfer whose memo exceeds the limit fails with
`TxTooLarge`, at a concrete input. -/
theorem executeTransferTx_spec_witness :
    executeTransferTx ⟨4, 4, 2⟩ (fun _ => 0) none (.ok [])
        ⟨⟨0, 0, ⟨0⟩, []⟩, 0, ⟨0⟩, [0, 0, 0], []⟩ =
      .error .txTooLarge := by
  exact (executeTransferTx_spec ⟨4, 4, 2⟩ (fun _ => 0) none (.ok [])
    ⟨⟨0, 0, ⟨0⟩, []⟩, 0, ⟨0⟩, [0, 0, 0], []⟩).2.2.1 (by decide) (by decide)
    (by decide)

/-- The fee formula shared by the claim's and the code's reading of
`get_network_fee`: `GRAEL_FEE_MIN × GRAEL_FEE_NET_MULT ^ count`, with no
value above the `u16` exponent range. -/
def networkFeeFormula (feeMin feeNetMult : Asset) (count : Nat) :
    Option Asset :=
  if 65535 < count then none
  else
    match feeNetMult.checkedPow count with
    | none => none
    | some m => feeMin.checkedMul m

/-- The count as the code computes it: 1 plus the receipt sum, then
divided by the window. -/
def codeNetworkFeeCount (window : Nat) (receiptCount : Nat → Nat)
    (chainHeight : Nat) : Nat :=
  let maxHeight := chainHeight - chainHeight % 5
  let minHeight := if window < maxHeight then maxHeight - window else 0
  (1 + sumReceipts receiptCount minHeight maxHeight) / window

/-- Formalizes C4's stated count: 1 plus the quotient of the receipt sum
by the window. -/
def claimNetworkFeeCount (window : Nat) (receiptCount : Nat → Nat)
    (chainHeight : Nat) : Nat :=
  let maxHeight := chainHeight - chainHeight % 5
  let minHeight := if window < maxHeight then maxHeight - window else 0
  1 + sumReceipts receiptCount minHeight maxHeight / window

/-- C4 counterexample: on an empty five-block-aligned chain with window 2,
the code's count is `(1 + 0) / 2 = 0` and the fee is `GRAEL_FEE_MIN`
itself, while the claim's count is `1 + 0 / 2 = 1` and its formula gives
`GRAEL_FEE_MIN × GRAEL_FEE_NET_MULT` — a different value (here the fee
constants are 0.00025 and 2.0 at the five-decimal fixed-point scale). -/
theorem getNetworkFee_counterexample :
    getNetworkFee ⟨25⟩ ⟨200000⟩ 2 (fun _ => 0) 0 = some ⟨25⟩ ∧
      networkFeeFormula ⟨25⟩ ⟨200000⟩
        (claimNetworkFeeCount 2 (fun _ => 0) 0) = some ⟨50⟩ := by
  decide

/-- C4 as corrected: the network fee only changes every five blocks
(every height gives the same fee as the height rounded down to a multiple
of five); the fee equals `GRAEL_FEE_MIN × GRAEL_FEE_NET_MULT ^ count`
with `count = (1 + sum of receipt counts over the window) / window` —
the 1 is added to the sum before the division, not after — and the
computation returns no value when that count exceeds the `u16` range. -/
theorem getNetworkFee_spec (feeMin feeNetMult : Asset) (window : Nat)
    (receiptCount : Nat → Nat) (chainHeight : Nat) :
    getNetworkFee feeMin feeNetMult window receiptCount chainHeight =
      getNetworkFee feeMin feeNetMult window receiptCount
        (chainHeight - chainHeight % 5) ∧
    getNetworkFee feeMin feeNetMult window receiptCount chainHeight =
      networkFeeFormula feeMin feeNetMult
        (codeNetworkFeeCount window receiptCount chainHeight) ∧
    (65535 < codeNetworkFeeCount window receiptCount chainHeight →
      getNetworkFee feeMin feeNetMult window receiptCount chainHeight =
        none) := by
  have hmod : chainHeight - chainHeight % 5 -
      (chainHeight - chainHeight % 5) % 5 = chainHeight - chainHeight % 5 := by
    omega
  refine ⟨?_, ?_, ?_⟩
  · simp only [getNetworkFee, hmod]
  · simp only [getNetworkFee, networkFeeFormula, codeNetworkFeeCount]
  · intro hcap
    simp only [getNetworkFee]
    rw [if_pos ?_]
    exact hcap

/-- C4 witness: the five-block alignment applied at a concrete input:
height 7 yields the same fee as height 5. -/
theorem getNetworkFee_spec_witness :
    getNetworkFee ⟨25⟩ ⟨200000⟩ 2 (fun _ => 1) 7 =
      getNetworkFee ⟨25⟩ ⟨200000⟩ 2 (fun _ => 1) 5 := by
  exact (getNetworkFee_spec ⟨25⟩ ⟨200000⟩ 2 (fun _ => 1) 7).1

/-- Whether a transaction is a create-account transaction — the variant
whose filtering arm is an unimplemented `todo!()`. -/
def isCreateAccount : TxVariantV0 → Bool
  | .createAccount _ => true
  | _ => false

/-- Boolean form of the per-receipt filter match, defined for the three
implemented variants. -/
def receiptMatchesB (hashScript : List Nat → Nat) (filter : List Nat)
    (r : Receipt) : Bool :=
  match r.tx with
  | .owner tx =>
    filter.contains tx.wallet || filter.contains (hashScript tx.script)
  | .mint tx =>
    filter.contains (hashScript tx.script) || filter.contains tx.toAddr
  | .createAccount _ => false
  | .transfer tx =>
    filter.contains tx.fromAddr ||
      r.log.any fun e =>
        match e with
        | .transfer toAddr _ => filter.contains toAddr

/-- A concrete block holding one create-account receipt and a signer. -/
def cxCABlock : Block :=
  ⟨⟨0, 0, 0, 0⟩, some ⟨0, 0⟩, ⟨0⟩,
    [⟨.createAccount ⟨⟨0, 0, ⟨0⟩, []⟩, 0, 0⟩, []⟩]⟩

/-- C7 counterexample: a stored block containing a create-account receipt
makes `get_filtered_block` hit the `todo!()` panic whenever the filter is
non-empty, returning no filtered block at all — the claim promises either
the full block or the header for every stored block.  The block has a
signer, so the missing result is not the signer unwrap. -/
theorem getFilteredBlock_counterexample :
    getFilteredBlock (fun _ => 0) [0] cxCABlock = none ∧
      cxCABlock.signer = some ⟨0, 0⟩ ∧ ([0] : List Nat) ≠ [] := by
  decide

/-- On a receipt that is not a create-account transaction, the filter
match is total and equals its boolean form. -/
theorem receiptMatches_eq_some (hashScript : List Nat → Nat)
    (filter : List Nat) (r : Receipt)
    (h : isCreateAccount r.tx = false) :
    receiptMatches hashScript filter r =
      some (receiptMatchesB hashScript filter r) := by
  cases htx : r.tx with
  | owner tx => simp [receiptMatches, receiptMatchesB, htx]
  | mint tx => simp [receiptMatches, receiptMatchesB, htx]
  | createAccount tx => rw [htx] at h; cases h
  | transfer tx =>
    simp only [receiptMatches, receiptMatchesB, htx]
    by_cases hc : tx.fromAddr ∈ filter
    · simp [hc]
    · simp [hc]

/-- Over receipts free of create-account transactions, the short-circuit
scan equals `List.any` of the boolean match. -/
theorem receiptsAnyMatch_eq_any (hashScript : List Nat → Nat)
    (filter : List Nat) :
    ∀ receipts : List Receipt,
      (∀ r ∈ receipts, isCreateAccount r.tx = false) →
      receiptsAnyMatch hashScript filter receipts =
        some (receipts.any (receiptMatchesB hashScript filter)) := by
  intro receipts
  induction receipts with
  | nil => intro _; simp [receiptsAnyMatch]
  | cons r rs ih =>
    intro hall
    have hr : isCreateAccount r.tx = false := hall r (by simp)
    have hrs : ∀ x ∈ rs, isCreateAccount x.tx = false := by
      intro x hx
      exact hall x (by simp [hx])
    simp only [receiptsAnyMatch, receiptMatches_eq_some hashScript filter r hr]
    cases hb : receiptMatchesB hashScript filter r with
    | true => simp [hb]
    | false => simp [hb, ih hrs]

/-- C7 as corrected: for a stored block with a signer, an empty filter
always yields the header — even when create-account receipts are present,
since the empty filter short-circuits before touching them; when no
receipt is a create-account transaction, a non-empty filter yields the
full block exactly when some receipt matches it (a transfer's sender or
any effect-log destination, a mint's recipient or script hash, an owner
transaction's wallet or script hash) and the header otherwise.  Blocks
holding a create-account receipt panic instead whenever the filter is
non-empty and no earlier receipt already matched. -/
theorem getFilteredBlock_spec (hashScript : List Nat → Nat)
    (filter : List Nat) (block : Block) (s : SigPair)
    (hsig : block.signer = some s) :
    (filter = [] →
      getFilteredBlock hashScript filter block =
        some (.header block.header s)) ∧
    ((∀ r ∈ block.receipts, isCreateAccount r.tx = false) →
      getFilteredBlock hashScript filter block =
        if filter ≠ [] ∧
            block.receipts.any (receiptMatchesB hashScript filter) = true
        then some (.block block)
        else some (.header block.header s)) := by
  constructor
  · intro hf
    simp [getFilteredBlock, hf, hsig]
  · intro hall
    by_cases hf : filter = []
    · simp [getFilteredBlock, hf, hsig]
    · have hne : filter.isEmpty = false := by
        simpa [List.isEmpty_iff] using hf
      simp only [getFilteredBlock, hne, Bool.false_eq_true, if_false,
        receiptsAnyMatch_eq_any hashScript filter block.receipts hall]
      cases hany : block.receipts.any (receiptMatchesB hashScript filter) with
      | true => simp [hf, hany]
      | false => simp [hf, hany, hsig]

/-- C7 witness: with an empty filter a block carrying only a transfer
receipt yields its header, applying the corrected characterization at a
concrete input. -/
theorem getFilteredBlock_spec_witness :
    getFilteredBlock (fun _ => 0) []
        ⟨⟨0, 0, 0, 0⟩, some ⟨7, 8⟩, ⟨0⟩,
          [⟨.transfer ⟨⟨0, 0, ⟨0⟩, []⟩, 3, ⟨1⟩, [], []⟩, []⟩]⟩ =
      some (.header ⟨0, 0, 0, 0⟩ ⟨7, 8⟩) := by
  exact (getFilteredBlock_spec (fun _ => 0) []
    ⟨⟨0, 0, 0, 0⟩, some ⟨7, 8⟩, ⟨0⟩,
      [⟨.transfer ⟨⟨0, 0, ⟨0⟩, []⟩, 3, ⟨1⟩, [], []⟩, []⟩]⟩ ⟨7, 8⟩ rfl).1 rfl

/-- The little-endian digit list has exactly the requested width. -/
theorem leDigits_length : ∀ w n, (leDigits w n).length = w := by
  intro w
  induction w with
  | zero => intro n; rfl
  | succ v ih => intro n; simp [leDigits, ih]

/-- Reading little-endian digits back gives the value modulo the base
range. -/
theorem leVal_leDigits : ∀ w n, leVal (leDigits w n) = n % 256 ^ w := by
  intro w
  induction w with
  | zero => intro n; simp [leDigits, leVal, Nat.mod_one]
  | succ v ih =>
    intro n
    have hpow : (256 : Nat) ^ (v + 1) = 256 * 256 ^ v := by ring
    rw [leDigits, leVal, ih, hpow, Nat.mod_mul]

/-- The big-endian reader over a reversed digit list equals the
little-endian value. -/
theorem beVal_reverse_eq_leVal : ∀ l : List Nat, beVal l.reverse = leVal l := by
  intro l
  induction l with
  | nil => rfl
  | cons b rest ih =>
    rw [List.reverse_cons]
    rw [beVal, List.foldl_append, ← beVal, ih]
    show leVal rest * 256 + b = b + 256 * leVal rest
    ring

/-- The big-endian bytes of a `u64` read back to the value itself. -/
theorem beVal_putU64 (n : Nat) (h : n < 2 ^ 64) : beVal (putU64 n) = n := by
  rw [putU64, beVal_reverse_eq_leVal, leVal_leDigits]
  have h2 : (256 : Nat) ^ 8 = 2 ^ 64 := by norm_num
  rw [h2]
  exact Nat.mod_eq_of_lt h

/-- The big-endian bytes of a `u32` read back to the value itself. -/
theorem beVal_putU32 (n : Nat) (h : n < 2 ^ 32) : beVal (putU32 n) = n := by
  rw [putU32, beVal_reverse_eq_leVal, leVal_leDigits]
  have h2 : (256 : Nat) ^ 4 = 2 ^ 32 := by norm_num
  rw [h2]
  exact Nat.mod_eq_of_lt h

/-- `put_u64` writes eight bytes. -/
theorem putU64_length (n : Nat) : (putU64 n).length = 8 := by
  simp [putU64, leDigits_length]

/-- `put_u32` writes four bytes. -/
theorem putU32_length (n : Nat) : (putU32 n).length = 4 := by
  simp [putU32, leDigits_length]

/-- Reading a `u64` after writing one recovers the value and the tail. -/
theorem takeU64_putU64 (n : Nat) (rest : List Nat) (h : n < 2 ^ 64) :
    takeU64 (putU64 n ++ rest) = some (n, rest) := by
  rw [takeU64, if_pos (by simp [putU64_length])]
  rw [List.take_left' (putU64_length n), List.drop_left' (putU64_length n),
    beVal_putU64 n h]

/-- Reading a `u32` after writing one recovers the value and the tail. -/
theorem takeU32_putU32 (n : Nat) (rest : List Nat) (h : n < 2 ^ 32) :
    takeU32 (putU32 n ++ rest) = some (n, rest) := by
  rw [takeU32, if_pos (by simp [putU32_length])]
  rw [List.take_left' (putU32_length n), List.drop_left' (putU32_length n),
    beVal_putU32 n h]

/-- Reading a length-prefixed blob after writing one recovers it. -/
theorem takeBytes_put (data rest : List Nat) (h : data.length < 2 ^ 32) :
    takeBytes (putU32 data.length ++ (data ++ rest)) = some (data, rest) := by
  simp only [takeBytes, takeU32_putU32 data.length (data ++ rest) h]
  rw [if_pos (by simp)]
  rw [List.take_left' rfl, List.drop_left' rfl]

/-- An entry deserializes from its own serialization followed by
anything. -/
theorem entry_roundtrip (e : Entry) (rest : List Nat) (h : e.wf) :
    Entry.deserialize (e.serialize ++ rest) = some (e, rest) := by
  obtain ⟨h1, h2, h3⟩ := h
  simp only [Entry.serialize, Entry.deserialize, List.append_assoc]
  simp only [takeU64_putU64 e.index _ h1, takeU64_putU64 e.term _ h2]
  simp only [takeBytes_put e.data rest h3]

/-- An entry's serialization has exactly `byte_size` bytes. -/
theorem entry_serialize_length (e : Entry) :
    (Entry.serialize e).length = e.byteSize := by
  simp [Entry.serialize, Entry.byteSize, putU64_length, putU32_length]
  omega

/-- A run of entries deserializes from its own serialization. -/
theorem entries_roundtrip :
    ∀ (es : List Entry) (rest : List Nat), (∀ e ∈ es, e.wf) →
      deserializeEntries es.length (serializeEntries es ++ rest) =
        some (es, rest) := by
  intro es
  induction es with
  | nil => intro rest _; simp [serializeEntries, deserializeEntries]
  | cons e es ih =>
    intro rest hwf
    have he : e.wf := hwf e (by simp)
    have hes : ∀ x ∈ es, x.wf := fun x hx => hwf x (by simp [hx])
    show deserializeEntries (es.length + 1)
      (Entry.serialize e ++ serializeEntries es ++ rest) = some (e :: es, rest)
    simp only [deserializeEntries, List.append_assoc, entry_roundtrip e _ he,
      ih rest hes]

/-- The total length of a run of serialized entries is the sum of their
byte sizes. -/
theorem serializeEntries_length (es : List Entry) :
    (serializeEntries es).length =
      es.foldl (fun acc e => acc + e.byteSize) 0 := by
  suffices hgen : ∀ (es : List Entry) (acc : Nat),
      acc + (serializeEntries es).length =
        es.foldl (fun a e => a + e.byteSize) acc by
    have := hgen es 0
    omega
  intro es
  induction es with
  | nil => intro acc; simp [serializeEntries]
  | cons e es ih =>
    intro acc
    rw [serializeEntries, List.foldl_cons, ← ih (acc + e.byteSize)]
    simp [entry_serialize_length]
    omega

/-- Reading a `u64` from exactly its own bytes. -/
theorem takeU64_putU64_nil (n : Nat) (h : n < 2 ^ 64) :
    takeU64 (putU64 n) = some (n, []) := by
  have := takeU64_putU64 n [] h
  simpa using this

/-- A run of entries deserializes from exactly its own serialization. -/
theorem entries_roundtrip_nil (es : List Entry) (h : ∀ e ∈ es, e.wf) :
    deserializeEntries es.length (serializeEntries es) = some (es, []) := by
  have := entries_roundtrip es [] h
  simpa using this

/-- The flag byte reads back as the boolean it encodes. -/
theorem decide_boolByte (b : Bool) : decide (¬ boolByte b = 0) = b := by
  cases b <;> rfl

/-- Negated form of the flag-byte read. -/
theorem decide_boolByte_eq (b : Bool) : decide (boolByte b = 0) = !b := by
  cases b <;> rfl

/-- C8: each replication request and response deserializes from its own
serialization to an equal value with nothing left over, and the length of
the serialization is exactly `byte_size`. -/
theorem rpc_roundtrip (rq : Request) (rs : Response)
    (hrq : rq.wf) (hrs : rs.wf) :
    (Request.deserialize (Request.serialize rq) = some (rq, []) ∧
      (Request.serialize rq).length = rq.byteSize) ∧
    (Response.deserialize (Response.serialize rs) = some (rs, []) ∧
      (Response.serialize rs).length = rs.byteSize) := by
  constructor
  · cases rq with
    | preVote lastIndex lastTerm =>
      obtain ⟨h1, h2⟩ := hrq
      constructor
      · simp [Request.serialize, Request.deserialize, takeU8,
          takeU64_putU64 _ _ h1, takeU64_putU64_nil _ h2]
      · simp [Request.serialize, Request.byteSize, putU64_length]
    | requestVote term lastIndex lastTerm =>
      obtain ⟨h1, h2, h3⟩ := hrq
      constructor
      · simp [Request.serialize, Request.deserialize, takeU8,
          takeU64_putU64 _ _ h1, takeU64_putU64 _ _ h2,
          takeU64_putU64_nil _ h3]
      · simp [Request.serialize, Request.byteSize, putU64_length]
    | appendEntries term prevIndex prevTerm leaderCommit entries =>
      obtain ⟨h1, h2, h3, h4, h5, h6⟩ := hrq
      constructor
      · simp [Request.serialize, Request.deserialize, takeU8,
          takeU64_putU64 _ _ h1, takeU64_putU64 _ _ h2,
          takeU64_putU64 _ _ h3, takeU64_putU64 _ _ h4,
          takeU64_putU64 _ _ h5, entries_roundtrip_nil entries h6]
      · simp [Request.serialize, Request.byteSize, putU64_length,
          serializeEntries_length]
        omega
    | logSync lastIndex lastTerm =>
      obtain ⟨h1, h2⟩ := hrq
      constructor
      · simp [Request.serialize, Request.deserialize, takeU8,
          takeU64_putU64 _ _ h1, takeU64_putU64_nil _ h2]
      · simp [Request.serialize, Request.byteSize, putU64_length]
  · cases rs with
    | preVote approved =>
      constructor
      · simp [Response.serialize, Response.deserialize, takeU8,
          decide_boolByte, decide_boolByte_eq]
      · simp [Response.serialize, Response.byteSize]
    | requestVote currentTerm approved =>
      have h1 : currentTerm < 2 ^ 64 := hrs
      constructor
      · simp [Response.serialize, Response.deserialize, takeU8,
          takeU64_putU64 _ _ h1, decide_boolByte, decide_boolByte_eq]
      · simp [Response.serialize, Response.byteSize, putU64_length]
    | appendEntries currentTerm success index =>
      obtain ⟨h1, h2⟩ := hrs
      constructor
      · simp [Response.serialize, Response.deserialize, takeU8,
          takeU64_putU64 _ _ h1, takeU64_putU64_nil _ h2, decide_boolByte,
          decide_boolByte_eq]
      · simp [Response.serialize, Response.byteSize, putU64_length]
    | logSync leaderCommit complete entries =>
      obtain ⟨h1, h2, h3⟩ := hrs
      constructor
      · simp [Response.serialize, Response.deserialize, takeU8,
          takeU64_putU64 _ _ h1, takeU64_putU64 _ _ h2,
          entries_roundtrip_nil entries h3, decide_boolByte, decide_boolByte_eq]
      · simp [Response.serialize, Response.byteSize, putU64_length,
          serializeEntries_length]
        omega

/-- C8 witness: the round trip applied to a concrete request and a
concrete response carrying one entry each. -/
theorem rpc_roundtrip_witness :
    Request.deserialize (Request.serialize
        (.appendEntries 3 2 1 9 [⟨1, 2, [5, 6]⟩])) =
      some (.appendEntries 3 2 1 9 [⟨1, 2, [5, 6]⟩], []) ∧
    Response.deserialize (Response.serialize (.logSync 4 true [⟨7, 8, []⟩])) =
      some (.logSync 4 true [⟨7, 8, []⟩], []) := by
  have hwq : (Request.appendEntries 3 2 1 9 [⟨1, 2, [5, 6]⟩]).wf := by
    refine ⟨by decide, by decide, by decide, by decide, by decide, ?_⟩
    intro e he
    simp at he
    subst he
    exact ⟨by decide, by decide, by decide⟩
  have hws : (Response.logSync 4 true [⟨7, 8, []⟩]).wf := by
    refine ⟨by decide, by decide, ?_⟩
    intro e he
    simp at he
    subst he
    exact ⟨by decide, by decide, by decide⟩
  constructor
  · exact (rpc_roundtrip (.appendEntries 3 2 1 9 [⟨1, 2, [5, 6]⟩])
      (.preVote true) hwq trivial).1.1
  · exact (rpc_roundtrip (.preVote 0 0) (.logSync 4 true [⟨7, 8, []⟩])
      ⟨by decide, by decide⟩ hws).2.1

/-- C9: decoding a WIF string produced by encoding recovers the key: for
public keys, `from_wif (to_wif k) = k`; for private keys, `from_wif
(to_wif k)` rebuilds the same key pair from the recovered seed.  The
statement is generic over the base-58 codec (assumed a round trip, the
spec's only requirement on it), the double-SHA-256 (any function with at
least four output bytes) and the seed-to-keypair derivation. -/
theorem wif_roundtrip (b58enc : List Nat → List Nat)
    (b58dec : List Nat → Option (List Nat)) (dsha : List Nat → List Nat)
    (derive : List Nat → List Nat × Nat)
    (hb58 : ∀ l, b58dec (b58enc l) = some l)
    (hsha : ∀ l, 4 ≤ (dsha l).length) :
    (∀ key : List Nat, key.length = 32 →
      pubKeyFromWif b58dec dsha (pubKeyToWif b58enc dsha key) = .ok key) ∧
    (∀ kp : KeyPair, kp.seed.length = 32 →
      derive kp.seed = (kp.pubKey, kp.secKey) →
      privKeyFromWif b58dec dsha derive (privKeyToWif b58enc dsha kp.seed) =
        .ok kp) := by
  constructor
  · intro key hkey
    have hchk : ((dsha (pubBufTag :: key)).take 4).length = 4 := by
      simp [List.length_take]
      exact hsha _
    have h33 : (pubBufTag :: key).length = 33 := by simp [hkey]
    have hlen : ((pubBufTag :: key) ++
        (dsha (pubBufTag :: key)).take 4).length = 37 := by
      rw [List.length_append, h33, hchk]
    have htake : ((pubBufTag :: key) ++
        (dsha (pubBufTag :: key)).take 4).take 33 = pubBufTag :: key :=
      List.take_left' h33
    have hdrop : ((pubBufTag :: key) ++
        (dsha (pubBufTag :: key)).take 4).drop 33 =
        (dsha (pubBufTag :: key)).take 4 :=
      List.drop_left' h33
    have h2 : (pubAddressTag ++ b58enc ((pubBufTag :: key) ++
        (dsha (pubBufTag :: key)).take 4)).drop 3 =
        b58enc ((pubBufTag :: key) ++ (dsha (pubBufTag :: key)).take 4) :=
      List.drop_left' rfl
    have h1 : (pubAddressTag ++ b58enc ((pubBufTag :: key) ++
        (dsha (pubBufTag :: key)).take 4)).take 3 = pubAddressTag :=
      List.take_left' rfl
    simp only [pubKeyToWif, pubKeyFromWif, h1, h2, hb58, hlen, htake, hdrop]
    simp
    simp [pubAddressTag]
  · intro kp hseed hderive
    have hchk : ((dsha (privBufTag :: kp.seed)).take 4).length = 4 := by
      simp [List.length_take]
      exact hsha _
    have h33 : (privBufTag :: kp.seed).length = 33 := by simp [hseed]
    have hlen : ((privBufTag :: kp.seed) ++
        (dsha (privBufTag :: kp.seed)).take 4).length = 37 := by
      rw [List.length_append, h33, hchk]
    have htake : ((privBufTag :: kp.seed) ++
        (dsha (privBufTag :: kp.seed)).take 4).take 33 =
        privBufTag :: kp.seed :=
      List.take_left' h33
    have hdrop : ((privBufTag :: kp.seed) ++
        (dsha (privBufTag :: kp.seed)).take 4).drop 33 =
        (dsha (privBufTag :: kp.seed)).take 4 :=
      List.drop_left' h33
    simp only [privKeyToWif, privKeyFromWif, hb58, hlen, htake, hdrop]
    simp [hderive]

/-- C9 witness: the public-key round trip at a concrete key, with a
concrete base-58 codec and checksum function satisfying the
hypotheses. -/
theorem wif_roundtrip_witness :
    pubKeyFromWif (fun l => some l) (fun _ => [0, 0, 0, 0])
        (pubKeyToWif (fun l => l) (fun _ => [0, 0, 0, 0])
          (List.replicate 32 3)) =
      .ok (List.replicate 32 3) := by
  exact (wif_roundtrip (fun l => l) (fun l => some l) (fun _ => [0, 0, 0, 0])
    (fun _ => ([9], 7)) (fun l => rfl) (fun l => by simp)).1
    (List.replicate 32 3) (by decide)
